import Mathlib

/-!
Shallow embedding of the plugwise-rust protocol core
(`src/protocol/mod.rs`, `src/protocol/messages/mod.rs`,
`src/protocol/messages/raw.rs`) and proofs about it.

Modelling conventions:
* bytes and machine integers are `Nat`, with `% 2^w` applied exactly where
  the Rust code wraps (u16 shifts, u32 wrapping arithmetic, `as u8` casts);
* the serial byte stream is a `List Nat`; the stateful reader is translated
  into explicit state passing (each reading function takes the remaining
  stream / remaining frame list and loops are given fuel equal to the
  length of that list, which each iteration strictly consumes, so the fuel
  never runs out before the Rust loop would have blocked);
* fallible Rust functions returning `PlResult<T>` become
  `Except PlError T`; a read that would block forever is `Option.none`;
* `f32`/`f64` arithmetic is modelled over exact rationals (`Rat`); IEEE
  bit patterns are decoded by `f32FromBits` (NaN/Inf, which have no
  rational value, are mapped to 0 and are never relied upon by a theorem).
-/

namespace Plugwise

/-- `std::io::ErrorKind` restricted to the kinds the crate distinguishes:
`TimedOut` (triggers the retry loop) versus everything else. -/
inductive IoErrorKind where
  | timedOut
  | other
deriving DecidableEq, Repr

/-- The crate's error enum `PlError` (src/error.rs). -/
inductive PlError where
  | io (kind : IoErrorKind)
  | notOnline
  | invalidTimestamp
  | unexpectedResponse
  | protocol
deriving DecidableEq, Repr

/-- `char::to_digit(16)`: hex digit value of an ASCII byte, if any. -/
def hexDigit? (c : Nat) : Option Nat :=
  if 48 ≤ c ∧ c ≤ 57 then some (c - 48)
  else if 97 ≤ c ∧ c ≤ 102 then some (c - 87)
  else if 65 ≤ c ∧ c ≤ 70 then some (c - 55)
  else none

/-- `to_digit(16).unwrap_or_default()`: non-hex bytes count as 0
(the historically tolerant CRC-field parser). -/
def hexVal (c : Nat) : Nat := (hexDigit? c).getD 0

/-- Uppercase hex digit character for a value `< 16` (as `format!("{:X}")`). -/
def hexDigitChar (d : Nat) : Nat := if d < 10 then 48 + d else 55 + d

/-- `format!("{:0wX}", v)` for a value `v < 16^w`: exactly `w` uppercase hex
characters, most significant nibble first. -/
def toHex : Nat → Nat → List Nat
  | 0, _ => []
  | w + 1, v => hexDigitChar (v / 16 ^ w) :: toHex w (v % 16 ^ w)

/-- One shift step of CRC-16 (poly 0x1021, width 16). -/
def crc16Step (crc : Nat) : Nat :=
  if 32768 ≤ crc then ((crc * 2) ^^^ 4129) % 65536 else (crc * 2) % 65536

/-- Iterate `crc16Step`. -/
def crc16Shift : Nat → Nat → Nat
  | 0, crc => crc
  | n + 1, crc => crc16Shift n (crc16Step crc)

/-- Fold one byte into a CRC-16/XMODEM state. -/
def crc16Byte (crc b : Nat) : Nat := crc16Shift 8 (crc ^^^ (b % 256) * 256)

/-- CRC-16/XMODEM of a byte string: poly 0x1021, init 0, no reflection,
no final xor (the `crc16` crate's `State::<XMODEM>`). -/
def crc16 (l : List Nat) : Nat := l.foldl crc16Byte 0

set_option maxRecDepth 4000

example : crc16 [49, 50, 51, 52, 53, 54, 55, 56, 57] = 0x31C3 := rfl

deriving instance DecidableEq for Except

/-- Frame header `05 05 03 03` (src/protocol/mod.rs). -/
def HEADER : List Nat := [5, 5, 3, 3]

/-- Frame footer `0D 0A`. -/
def FOOTER : List Nat := [13, 10]

/-- End-of-message byte, the read boundary of `read_until`. -/
def EOM : Nat := 10

/-- Number of CRC characters in a frame. -/
def CRC_SIZE : Nat := 4

/-- Default retry count. -/
def DEFAULT_RETRIES : Nat := 3

/-- `Protocol::send_message_raw`: the bytes written to the transport for a
payload: header, payload, 4 uppercase-hex CRC characters, footer. -/
def send_message_raw (payload : List Nat) : List Nat :=
  HEADER ++ payload ++ toHex 4 (crc16 payload) ++ FOOTER

/-- `BufRead::read_until(EOM)`: split the stream into the chunk up to and
including the first `EOM` byte (the whole stream if none) and the rest. -/
def readUntil : List Nat → List Nat × List Nat
  | [] => ([], [])
  | b :: rest =>
    if b = EOM then ([b], rest)
    else
      let (line, r) := readUntil rest
      (b :: line, r)

/-- `buf.windows(pat.len()).position(|x| *x == pat)` with the scan started
at index `i`: index of the first window equal to `pat`. -/
def findSubAux (pat : List Nat) : List Nat → Nat → Option Nat
  | [], i => if pat.isEmpty then some i else none
  | b :: rest, i =>
    if (b :: rest).length < pat.length then none
    else if pat.isPrefixOf (b :: rest) then some i
    else findSubAux pat rest (i + 1)

/-- Index of the first occurrence of `pat` as a window of `l`. -/
def findSub (pat l : List Nat) : Option Nat := findSubAux pat l 0

/-- Does `pat` occur in `l` starting at index `i`? -/
def matchAt (pat l : List Nat) (i : Nat) : Bool := pat.isPrefixOf (l.drop i)

/-- `rposition` scan: largest `j ≤ i` such that `pat` occurs at `j`. -/
def rfindAux (pat l : List Nat) : Nat → Option Nat
  | 0 => if matchAt pat l 0 then some 0 else none
  | i + 1 => if matchAt pat l (i + 1) then some (i + 1) else rfindAux pat l i

/-- `buf.windows(pat.len()).rposition(|x| *x == pat)`: index of the last
window of `l` equal to `pat`. -/
def rfindSub (pat l : List Nat) : Option Nat :=
  if l.length < pat.length then none
  else rfindAux pat l (l.length - pat.length)

/-- Loop body of `Protocol::receive_plugwise_message_raw`, with fuel.
Each iteration reads one `read_until` chunk; a chunk containing the header
is returned together with header and (last) footer positions, a missing
footer is a protocol error, a header-less chunk is skipped. `none` models
the blocking read that an exhausted stream would cause. -/
def receive_plugwise_aux : Nat → List Nat → Option (Except PlError (List Nat × Nat × Nat))
  | 0, _ => none
  | _, [] => none
  | fuel + 1, s =>
    let (buf, rest) := readUntil s
    match findSub HEADER buf with
    | some hp =>
      match rfindSub FOOTER buf with
      | none => some (.error .protocol)
      | some fp => some (.ok (buf, hp, fp))
    | none => receive_plugwise_aux fuel rest

/-- `Protocol::receive_plugwise_message_raw` on a byte stream. -/
def receive_plugwise_message_raw (s : List Nat) : Option (Except PlError (List Nat × Nat × Nat)) :=
  receive_plugwise_aux s.length s

/-- `Protocol::receive_message_raw`: receive a chunk with a header, chop
header/footer, parse the 4 CRC characters leniently (`to_digit(16)`,
non-hex as 0, accumulated into a `u16` by `acc << 4 | digit`), recompute
CRC-16/XMODEM over the payload and compare; on match return the payload. -/
def receive_message_raw (s : List Nat) : Option (Except PlError (List Nat)) :=
  match receive_plugwise_message_raw s with
  | none => none
  | some (.error e) => some (.error e)
  | some (.ok (buf, hp, fp)) =>
    let payload := (buf.take (fp - CRC_SIZE)).drop (hp + HEADER.length)
    let crc := (((buf.drop (fp - CRC_SIZE)).take CRC_SIZE).take 4).foldl
      (fun acc c => ((acc <<< 4) % 65536) ||| hexVal c) 0
    if crc = crc16 payload then some (.ok payload) else some (.error .protocol)

example :
    receive_message_raw (send_message_raw [48, 49, 50]) = some (.ok [48, 49, 50]) := rfl

/-! ## Message codec (src/protocol/messages/raw.rs, src/protocol/messages/mod.rs) -/

/-- Hex-digit run of `from_str_radix`: all characters must be hex digits,
accumulated most significant first. -/
def parseHexAux : List Nat → Nat → Option Nat
  | [], acc => some acc
  | c :: r, acc =>
    match hexDigit? c with
    | none => none
    | some d => parseHexAux r (acc * 16 + d)

/-- `u::from_str_radix(s, 16)` for an unsigned type with `bound = 2^bits`:
an optional sign (`+`, or `-` which for an unsigned type only accepts a
run of zeros), then a non-empty run of hex digits, checked against the
type's range. -/
def fromStrRadix16 (cs : List Nat) (bound : Nat) : Option Nat :=
  match cs with
  | [] => none
  | c :: rest =>
    if c = 43 then
      if rest.isEmpty then none
      else (parseHexAux rest 0).bind fun v => if v < bound then some v else none
    else if c = 45 then
      if rest.isEmpty then none
      else (parseHexAux rest 0).bind fun v => if v = 0 then some 0 else none
    else
      (parseHexAux cs 0).bind fun v => if v < bound then some v else none

/-- `RawDataConsumer::consume`: split off `size` bytes, or fail with an
io error ("data missing in received message"). -/
def consume (buf : List Nat) (size : Nat) : Except PlError (List Nat × List Nat) :=
  if buf.length < size then .error (.io .other)
  else .ok (buf.take size, buf.drop size)

/-- `RawDataConsumer::decode::<T>` for a `size`-byte unsigned integer type:
consume `2 * size` ASCII-hex characters and parse them with
`from_str_radix(_, 16)`. Returns (remaining cursor, value). -/
def decode (size : Nat) (buf : List Nat) : Except PlError (List Nat × Nat) := do
  let (chunk, rest) ← consume buf (2 * size)
  match fromStrRadix16 chunk (2 ^ (8 * size)) with
  | none => .error (.io .other)
  | some v => .ok (rest, v)

/-- Value of an IEEE-754 binary32 bit pattern as an exact rational.
NaN and infinity (exponent 255) have no rational value and are mapped
to 0; no theorem below depends on those cases. -/
def f32FromBits (b : Nat) : Rat :=
  let sign : Nat := b / 2 ^ 31 % 2
  let ex : Nat := b / 2 ^ 23 % 256
  let frac : Nat := b % 2 ^ 23
  let mag : Rat :=
    if ex = 255 then 0
    else if ex = 0 then (frac : Rat) / 2 ^ 149
    else ((2 ^ 23 + frac : Nat) : Rat) * 2 ^ ex / 2 ^ 150
  if sign = 1 then -mag else mag

/-- `RawDataConsumer::decode_f32`: decode a `u32` and reinterpret the bits
as an `f32` (`transmute` is bit-for-bit). -/
def decode_f32 (buf : List Nat) : Except PlError (List Nat × Rat) := do
  let (rest, bits) ← decode 4 buf
  .ok (rest, f32FromBits bits)

/-- UTF-8 continuation byte. -/
def isUtf8Cont (b : Nat) : Bool := 128 ≤ b && b < 192

/-- `str::from_utf8` validity (RFC 3629: no overlongs, no surrogates,
max U+10FFFF). -/
def utf8Valid : List Nat → Bool
  | [] => true
  | b :: rest =>
    if b < 128 then utf8Valid rest
    else if 194 ≤ b && b ≤ 223 then
      match rest with
      | c1 :: r => isUtf8Cont c1 && utf8Valid r
      | [] => false
    else if 224 ≤ b && b ≤ 239 then
      match rest with
      | c1 :: c2 :: r =>
        (if b = 224 then decide (160 ≤ c1 ∧ c1 ≤ 191)
         else if b = 237 then decide (128 ≤ c1 ∧ c1 ≤ 159)
         else isUtf8Cont c1) && isUtf8Cont c2 && utf8Valid r
      | _ => false
    else if 240 ≤ b && b ≤ 244 then
      match rest with
      | c1 :: c2 :: c3 :: r =>
        (if b = 240 then decide (144 ≤ c1 ∧ c1 ≤ 191)
         else if b = 244 then decide (128 ≤ c1 ∧ c1 ≤ 143)
         else isUtf8Cont c1) && isUtf8Cont c2 && isUtf8Cont c3 && utf8Valid r
      | _ => false
    else false

/-- `RawDataConsumer::decode_string`: consume `size` bytes which must be
valid UTF-8 (the string is kept as its byte list). -/
def decode_string (size : Nat) (buf : List Nat) : Except PlError (List Nat × List Nat) := do
  let (chunk, rest) ← consume buf size
  if utf8Valid chunk then .ok (rest, chunk) else .error (.io .other)

/-- On-wire date-time (year byte, month byte, minutes-of-month word). -/
structure DateTime where
  year : Nat
  months : Nat
  minutes : Nat
deriving DecidableEq, Repr

/-- `DateTime::new_raw`. -/
def DateTime.new_raw (year months minutes : Nat) : DateTime :=
  { year := year, months := months, minutes := minutes }

/-- `RawDataConsumer::decode_datetime`: decode the four bytes once as a
`u32` (pre-read echo, value discarded but errors propagate), then re-read
the same characters as `(u8 year, u8 months, u16 minutes)`; the cursor
advances by the 8 characters of the `u32`. -/
def decode_datetime (buf : List Nat) : Except PlError (List Nat × DateTime) := do
  let (rest, _echo) ← decode 4 buf
  let (r1, year) ← decode 1 buf
  let (r1, months) ← decode 1 r1
  let (_r2, minutes) ← decode 2 r1
  .ok (rest, DateTime.new_raw year months minutes)

/-- `RawDataConsumer::check_fully_consumed`: a non-empty cursor after a
complete decode is an error ("unconsumed data detected"). -/
def check_fully_consumed (buf : List Nat) : Except PlError Unit :=
  if buf.length = 0 then .ok () else .error (.io .other)

/-! ## Domain conversions -/

/-- Start of the hourly log in flash. -/
def ADDR_OFFS : Nat := 278528

/-- Bytes per log element. -/
def BYTES_PER_POS : Nat := 32

/-- `pos2addr`: log element index to flash byte address (u32 arithmetic). -/
def pos2addr (pos : Nat) : Nat := (pos * BYTES_PER_POS + ADDR_OFFS) % 4294967296

/-- `addr2pos`: flash byte address to log element index (u32 arithmetic;
the subtraction wraps modulo 2^32). -/
def addr2pos (addr : Nat) : Nat :=
  ((addr + 4294967296 - ADDR_OFFS) % 4294967296) / BYTES_PER_POS

/-- Raw pulse count with its measurement timespan in seconds. -/
structure Pulses where
  pulses : Nat
  timespan : Nat
deriving DecidableEq, Repr

/-- `Pulses::new`. -/
def Pulses.new (pulses timespan : Nat) : Pulses := ⟨pulses, timespan⟩

/-- Pulses per kW, `468.9385193` (an `f64` literal, modelled exactly). -/
def PULSES_PER_KW : Rat := (4689385193 : Rat) / 10000000

/-- Calibration constants (f32 fields, modelled as exact rationals). -/
structure ResCalibration where
  gain_a : Rat
  gain_b : Rat
  off_total : Rat
  off_noise : Rat
deriving DecidableEq, Repr

/-- `ResCalibration::new`: four consecutive f32 fields, cursor must end
empty. -/
def ResCalibration.new (decoder : List Nat) : Except PlError ResCalibration := do
  let (decoder, gain_a) ← decode_f32 decoder
  let (decoder, gain_b) ← decode_f32 decoder
  let (decoder, off_total) ← decode_f32 decoder
  let (decoder, off_noise) ← decode_f32 decoder
  check_fully_consumed decoder
  pure { gain_a := gain_a, gain_b := gain_b, off_total := off_total, off_noise := off_noise }

/-- `Pulses::to_pulses_per_second`: corrected pulses per second; a raw
count of 0 or 0xFFFF short-circuits to 0 before any calibration is
applied (f64 arithmetic modelled over exact rationals). -/
def Pulses.to_pulses_per_second (p : Pulses) (calibration : ResCalibration) : Rat :=
  if p.pulses = 0 ∨ p.pulses = 65535 then 0
  else
    let noise_corrected := (p.pulses : Rat) / (p.timespan : Rat) + calibration.off_noise
    noise_corrected ^ 2 * calibration.gain_b + noise_corrected * calibration.gain_a +
      calibration.off_total

/-- `Pulses::to_kw`. -/
def Pulses.to_kw (p : Pulses) (calibration : ResCalibration) : Rat :=
  p.to_pulses_per_second calibration / PULSES_PER_KW

/-- `Pulses::to_watts`. -/
def Pulses.to_watts (p : Pulses) (calibration : ResCalibration) : Rat :=
  p.to_kw calibration * 1000

/-- `Pulses::to_kwh`. -/
def Pulses.to_kwh (p : Pulses) (calibration : ResCalibration) : Rat :=
  p.to_kw calibration * ((p.timespan : Rat) / 3600)

/-! ## Message identifiers -/

def ACK : Nat := 0x0000
def REQ_INITIALIZE : Nat := 0x000A
def RES_INITIALIZE : Nat := 0x0011
def REQ_INFO : Nat := 0x0023
def RES_INFO : Nat := 0x0024
def REQ_SWITCH : Nat := 0x0017
def REQ_CALIBRATION : Nat := 0x0026
def RES_CALIBRATION : Nat := 0x0027
def REQ_POWER_BUFFER : Nat := 0x0048
def RES_POWER_BUFFER : Nat := 0x0049
def REQ_POWER_USE : Nat := 0x0012
def RES_POWER_USE : Nat := 0x0013
def REQ_CLOCK_INFO : Nat := 0x003E
def RES_CLOCK_INFO : Nat := 0x003F
def REQ_CLOCK_SET : Nat := 0x0016

/-- The enumerated message identifier set. -/
inductive MessageId where
  | Ack
  | ReqInitialize
  | ResInitialize
  | ReqInfo
  | ResInfo
  | ReqSwitch
  | ReqCalibration
  | ResCalibration
  | ReqPowerBuffer
  | ResPowerBuffer
  | ReqPowerUse
  | ResPowerUse
  | ReqClockInfo
  | ResClockInfo
  | ReqClockSet
deriving DecidableEq, Repr

/-- `MessageId::new`: dispatch on the wire identifier; any value outside
the enumerated set falls through to `MessageId::Ack`. -/
def MessageId.new (id : Nat) : MessageId :=
  if id = ACK then .Ack
  else if id = REQ_INITIALIZE then .ReqInitialize
  else if id = RES_INITIALIZE then .ResInitialize
  else if id = REQ_INFO then .ReqInfo
  else if id = RES_INFO then .ResInfo
  else if id = REQ_SWITCH then .ReqSwitch
  else if id = REQ_CALIBRATION then .ReqCalibration
  else if id = RES_CALIBRATION then .ResCalibration
  else if id = REQ_POWER_BUFFER then .ReqPowerBuffer
  else if id = RES_POWER_BUFFER then .ResPowerBuffer
  else if id = REQ_POWER_USE then .ReqPowerUse
  else if id = RES_POWER_USE then .ResPowerUse
  else if id = REQ_CLOCK_INFO then .ReqClockInfo
  else if id = RES_CLOCK_INFO then .ResClockInfo
  else if id = REQ_CLOCK_SET then .ReqClockSet
  else .Ack

/-- The `repr(u16)` discriminant of a `MessageId`. -/
def MessageId.val : MessageId → Nat
  | .Ack => ACK
  | .ReqInitialize => REQ_INITIALIZE
  | .ResInitialize => RES_INITIALIZE
  | .ReqInfo => REQ_INFO
  | .ResInfo => RES_INFO
  | .ReqSwitch => REQ_SWITCH
  | .ReqCalibration => REQ_CALIBRATION
  | .ResCalibration => RES_CALIBRATION
  | .ReqPowerBuffer => REQ_POWER_BUFFER
  | .ResPowerBuffer => RES_POWER_BUFFER
  | .ReqPowerUse => REQ_POWER_USE
  | .ResPowerUse => RES_POWER_USE
  | .ReqClockInfo => REQ_CLOCK_INFO
  | .ResClockInfo => RES_CLOCK_INFO
  | .ReqClockSet => REQ_CLOCK_SET

/-- `MessageId::as_bytes`: `format!("{:04X}", *self as u16)`. -/
def MessageId.as_bytes (m : MessageId) : List Nat := toHex 4 m.val

/-! ## Message structs and decoders -/

/-- Common received-message header fields. -/
structure ResHeader where
  msgid : MessageId
  count : Nat
  mac : Nat
deriving DecidableEq, Repr

/-- Request header: the addressed socket. -/
structure ReqHeader where
  mac : Nat
deriving DecidableEq, Repr

/-- `ReqHeader::as_bytes`: `format!("{:016X}", mac)`. -/
def ReqHeader.as_bytes (h : ReqHeader) : List Nat := toHex 16 h.mac

/-- Acknowledge body: status plus optional echoed socket id. -/
structure Ack where
  status : Nat
  mac : Option Nat
deriving DecidableEq, Repr

/-- `Ack::new`: status, then a socket id iff bytes remain, cursor must
end empty. -/
def Ack.new (decoder : List Nat) : Except PlError Ack := do
  let (decoder, status) ← decode 2 decoder
  let (decoder, mac) ←
    if 0 < decoder.length then do
      let (decoder, mac) ← decode 8 decoder
      pure (decoder, some mac)
    else
      pure (decoder, (none : Option Nat))
  check_fully_consumed decoder
  pure { status := status, mac := mac }

/-- Initialize response body. -/
structure ResInitialize where
  unknown1 : Nat
  is_online : Bool
  network_id : Nat
  short_id : Nat
  unknown2 : Nat
deriving DecidableEq, Repr

/-- `ResInitialize::new`. -/
def ResInitialize.new (decoder : List Nat) : Except PlError ResInitialize := do
  let (decoder, unknown1) ← decode 1 decoder
  let (decoder, is_online) ← decode 1 decoder
  let (decoder, network_id) ← decode 8 decoder
  let (decoder, short_id) ← decode 2 decoder
  let (decoder, unknown2) ← decode 1 decoder
  check_fully_consumed decoder
  pure { unknown1 := unknown1, is_online := is_online ≠ 0, network_id := network_id,
         short_id := short_id, unknown2 := unknown2 }

/-- `u32 as i32` (two's complement reinterpretation). -/
def toI32 (n : Nat) : Int := if n < 2 ^ 31 then (n : Int) else (n : Int) - 2 ^ 32

/-- Info response body. `hw_ver` is the 12 raw string bytes; `fw_ver` the
seconds of `Timespec::new((fw_ver as i32) as i64, 0)`. -/
structure ResInfo where
  datetime : DateTime
  last_logaddr : Nat
  relay_state : Bool
  hz : Nat
  hw_ver : List Nat
  fw_ver : Int
  unknown : Nat
deriving DecidableEq, Repr

/-- `ResInfo::new`: note `last_logaddr` is normalized with `addr2pos` and
the hz code is decoded (133 to 50, 197 to 60, else 0). -/
def ResInfo.new (decoder : List Nat) : Except PlError ResInfo := do
  let (decoder, datetime) ← decode_datetime decoder
  let (decoder, last_logaddr) ← decode 4 decoder
  let (decoder, relay_state) ← decode 1 decoder
  let (decoder, hz) ← decode 1 decoder
  let (decoder, hw_ver) ← decode_string 12 decoder
  let (decoder, fw_ver) ← decode 4 decoder
  let (decoder, unknown) ← decode 1 decoder
  check_fully_consumed decoder
  pure { datetime := datetime, last_logaddr := addr2pos last_logaddr,
         relay_state := relay_state ≠ 0,
         hz := if hz = 133 then 50 else if hz = 197 then 60 else 0,
         hw_ver := hw_ver, fw_ver := toI32 fw_ver, unknown := unknown }

/-- Switch request body (the field is named `on` in the source). -/
structure ReqSwitch where
  «on» : Bool
deriving DecidableEq, Repr

/-- `ReqSwitch::as_bytes`: `format!("{:02X}", on as int)`. -/
def ReqSwitch.as_bytes (r : ReqSwitch) : List Nat := toHex 2 (if r.«on» then 1 else 0)

/-- PowerBuffer request body: a log element index. -/
structure ReqPowerBuffer where
  logaddr : Nat
deriving DecidableEq, Repr

/-- `ReqPowerBuffer::as_bytes`: the index is converted with `pos2addr` and
rendered as `format!("{:08X}", _)`. -/
def ReqPowerBuffer.as_bytes (r : ReqPowerBuffer) : List Nat := toHex 8 (pos2addr r.logaddr)

/-- PowerBuffer response body: four hourly (timestamp, pulses) pairs plus
the echoed log address. -/
structure ResPowerBuffer where
  datetime1 : DateTime
  pulses1 : Pulses
  datetime2 : DateTime
  pulses2 : Pulses
  datetime3 : DateTime
  pulses3 : Pulses
  datetime4 : DateTime
  pulses4 : Pulses
  logaddr : Nat
deriving DecidableEq, Repr

/-- `ResPowerBuffer::new`: each pulse count is paired with a 3600 s
timespan; the echoed address is normalized with `addr2pos`. -/
def ResPowerBuffer.new (decoder : List Nat) : Except PlError ResPowerBuffer := do
  let (decoder, datetime1) ← decode_datetime decoder
  let (decoder, pulses1) ← decode 4 decoder
  let (decoder, datetime2) ← decode_datetime decoder
  let (decoder, pulses2) ← decode 4 decoder
  let (decoder, datetime3) ← decode_datetime decoder
  let (decoder, pulses3) ← decode 4 decoder
  let (decoder, datetime4) ← decode_datetime decoder
  let (decoder, pulses4) ← decode 4 decoder
  let (decoder, logaddr) ← decode 4 decoder
  check_fully_consumed decoder
  pure { datetime1 := datetime1, pulses1 := Pulses.new pulses1 3600,
         datetime2 := datetime2, pulses2 := Pulses.new pulses2 3600,
         datetime3 := datetime3, pulses3 := Pulses.new pulses3 3600,
         datetime4 := datetime4, pulses4 := Pulses.new pulses4 3600,
         logaddr := addr2pos logaddr }

/-- PowerUse response body. -/
structure ResPowerUse where
  pulse_1s : Pulses
  pulse_8s : Pulses
  pulse_hour : Pulses
  unknown1 : Nat
  unknown2 : Nat
  unknown3 : Nat
deriving DecidableEq, Repr

/-- `ResPowerUse::new`: 1 s / 8 s / hour windows. -/
def ResPowerUse.new (decoder : List Nat) : Except PlError ResPowerUse := do
  let (decoder, pulse_1s) ← decode 2 decoder
  let (decoder, pulse_8s) ← decode 2 decoder
  let (decoder, pulse_hour) ← decode 4 decoder
  let (decoder, unknown1) ← decode 2 decoder
  let (decoder, unknown2) ← decode 2 decoder
  let (decoder, unknown3) ← decode 2 decoder
  check_fully_consumed decoder
  pure { pulse_1s := Pulses.new pulse_1s 1, pulse_8s := Pulses.new pulse_8s 8,
         pulse_hour := Pulses.new pulse_hour 3600,
         unknown1 := unknown1, unknown2 := unknown2, unknown3 := unknown3 }

/-- ClockInfo response body. -/
structure ResClockInfo where
  hour : Nat
  minute : Nat
  second : Nat
  day_of_week : Nat
  unknown1 : Nat
  unknown2 : Nat
deriving DecidableEq, Repr

/-- `ResClockInfo::new`. -/
def ResClockInfo.new (decoder : List Nat) : Except PlError ResClockInfo := do
  let (decoder, hour) ← decode 1 decoder
  let (decoder, minute) ← decode 1 decoder
  let (decoder, second) ← decode 1 decoder
  let (decoder, day_of_week) ← decode 1 decoder
  let (decoder, unknown1) ← decode 1 decoder
  let (decoder, unknown2) ← decode 2 decoder
  check_fully_consumed decoder
  pure { hour := hour, minute := minute, second := second, day_of_week := day_of_week,
         unknown1 := unknown1, unknown2 := unknown2 }

/-! ## Calendar values (fields of the external `time::Tm`) -/

/-- `i32 as u8` truncation. -/
def toU8 (x : Int) : Nat := (x % 256).toNat

/-- `i32 as u16` truncation. -/
def toU16 (x : Int) : Nat := (x % 65536).toNat

/-- The external `time::Tm` calendar value (fields are C `int`s). -/
structure Tm where
  tm_sec : Int
  tm_min : Int
  tm_hour : Int
  tm_mday : Int
  tm_mon : Int
  tm_year : Int
  tm_wday : Int
  tm_yday : Int
  tm_isdst : Int
  tm_utcoff : Int
  tm_nsec : Int
deriving DecidableEq, Repr

/-- Modelled from the spec: `time::Tm::to_utc` belongs to the external
`time` crate, not to this repository; calendar values in this model are
taken to be UTC already, making the conversion the identity. None of the
properties proved below depend on the timezone conversion. -/
def Tm.to_utc (t : Tm) : Tm := t

/-- `DateTime::new`: pack a UTC calendar value into the wire date-time
(`as u8` / `as u16` casts truncate). -/
def DateTime.new (timestamp : Tm) : DateTime :=
  let utc := timestamp.to_utc
  { year := toU8 (utc.tm_year - 100),
    months := toU8 (utc.tm_mon + 1),
    minutes := toU16 ((utc.tm_mday - 1) * 24 * 60 + utc.tm_hour * 60 + utc.tm_min) }

/-- ClockSet request body. -/
structure ReqClockSet where
  datetime : DateTime
  logaddr : Option Nat
  hour : Nat
  minute : Nat
  second : Nat
  day_of_week : Nat
deriving DecidableEq, Repr

/-- `ReqClockSet::new_from_tm`: Monday to Saturday (1..6) keep their
number, Sunday (0) becomes 7; any other `tm_wday` hits `unreachable!()`,
modelled as `none`. -/
def ReqClockSet.new_from_tm (tm : Tm) : Option ReqClockSet :=
  let utc := tm.to_utc
  let dow? : Option Nat :=
    if 1 ≤ tm.tm_wday ∧ tm.tm_wday ≤ 6 then some tm.tm_wday.toNat
    else if tm.tm_wday = 0 then some 7
    else none
  dow?.map fun day_of_week =>
    { datetime := DateTime.new utc, logaddr := none, hour := toU8 utc.tm_hour,
      minute := toU8 utc.tm_min, second := toU8 utc.tm_sec, day_of_week := day_of_week }

/-- `ReqClockSet::as_bytes`: an absent log address is rendered as
`0xFFFFFFFF`, a present index goes through `pos2addr`. -/
def ReqClockSet.as_bytes (r : ReqClockSet) : List Nat :=
  let logaddr : Nat :=
    match r.logaddr with
    | none => 0xffffffff
    | some addr => pos2addr addr
  toHex 2 r.datetime.year ++ toHex 2 r.datetime.months ++ toHex 4 r.datetime.minutes ++
    toHex 8 logaddr ++ toHex 2 r.hour ++ toHex 2 r.minute ++ toHex 2 r.second ++
    toHex 2 r.day_of_week

/-! ## The message family -/

/-- The typed message family (enum `Message`). -/
inductive Message where
  | Ack (hdr : ResHeader) (res : Ack)
  | ReqInitialize
  | ResInitialize (hdr : ResHeader) (res : ResInitialize)
  | ReqInfo (hdr : ReqHeader)
  | ResInfo (hdr : ResHeader) (res : ResInfo)
  | ReqSwitch (hdr : ReqHeader) (req : ReqSwitch)
  | ReqCalibration (hdr : ReqHeader)
  | ResCalibration (hdr : ResHeader) (res : ResCalibration)
  | ReqPowerBuffer (hdr : ReqHeader) (req : ReqPowerBuffer)
  | ResPowerBuffer (hdr : ResHeader) (res : ResPowerBuffer)
  | ReqPowerUse (hdr : ReqHeader)
  | ResPowerUse (hdr : ResHeader) (res : ResPowerUse)
  | ReqClockInfo (hdr : ReqHeader)
  | ResClockInfo (hdr : ResHeader) (res : ResClockInfo)
  | ReqClockSet (hdr : ReqHeader) (req : ReqClockSet)
deriving DecidableEq, Repr

/-- `Message::to_message_id`. -/
def Message.to_message_id : Message → MessageId
  | .Ack .. => .Ack
  | .ReqInitialize => .ReqInitialize
  | .ResInitialize .. => .ResInitialize
  | .ReqInfo .. => .ReqInfo
  | .ResInfo .. => .ResInfo
  | .ReqSwitch .. => .ReqSwitch
  | .ReqCalibration .. => .ReqCalibration
  | .ResCalibration .. => .ResCalibration
  | .ReqPowerBuffer .. => .ReqPowerBuffer
  | .ResPowerBuffer .. => .ResPowerBuffer
  | .ReqPowerUse .. => .ReqPowerUse
  | .ResPowerUse .. => .ResPowerUse
  | .ReqClockInfo .. => .ReqClockInfo
  | .ResClockInfo .. => .ResClockInfo
  | .ReqClockSet .. => .ReqClockSet

/-- `Message::to_payload`: identifier, then the request header for the
addressed requests, then the request-specific body; a message the host
never emits is a protocol error. -/
def Message.to_payload (m : Message) : Except PlError (List Nat) :=
  let idBytes := m.to_message_id.as_bytes
  let withHeader : List Nat :=
    match m with
    | .ReqInfo header
    | .ReqSwitch header _
    | .ReqCalibration header
    | .ReqPowerBuffer header _
    | .ReqPowerUse header
    | .ReqClockInfo header
    | .ReqClockSet header _ => idBytes ++ header.as_bytes
    | _ => idBytes
  match m with
  | .ReqInitialize
  | .ReqInfo _
  | .ReqCalibration _
  | .ReqPowerUse _
  | .ReqClockInfo _ => .ok withHeader
  | .ReqPowerBuffer _ req => .ok (withHeader ++ req.as_bytes)
  | .ReqSwitch _ req => .ok (withHeader ++ req.as_bytes)
  | .ReqClockSet _ req => .ok (withHeader ++ req.as_bytes)
  | _ => .error .protocol

/-- `Message::from_payload`: identifier (4 hex chars), sequence counter
(4 chars), then — for every identifier except ACK — a 16-char socket id,
then dispatch to the per-variant decoder; identifiers that only exist as
requests are a protocol error. Unknown identifiers have already been
collapsed to `MessageId::Ack` by `MessageId::new`. -/
def Message.from_payload (payload : List Nat) : Except PlError Message := do
  let (decoder, msg_id) ← decode 2 payload
  let (decoder, counter) ← decode 2 decoder
  let msgId := MessageId.new msg_id
  let (decoder, mac) ←
    if msgId ≠ MessageId.Ack then decode 8 decoder
    else pure (decoder, 0)
  let header : ResHeader := { msgid := msgId, count := counter, mac := mac }
  match msgId with
  | .ResInitialize => do
    let res ← ResInitialize.new decoder
    pure (Message.ResInitialize header res)
  | .ResInfo => do
    let res ← ResInfo.new decoder
    pure (Message.ResInfo header res)
  | .ResCalibration => do
    let res ← ResCalibration.new decoder
    pure (Message.ResCalibration header res)
  | .ResPowerBuffer => do
    let res ← ResPowerBuffer.new decoder
    pure (Message.ResPowerBuffer header res)
  | .ResPowerUse => do
    let res ← ResPowerUse.new decoder
    pure (Message.ResPowerUse header res)
  | .ResClockInfo => do
    let res ← ResClockInfo.new decoder
    pure (Message.ResClockInfo header res)
  | .Ack => do
    let res ← Ack.new decoder
    pure (Message.Ack header res)
  | _ => .error .protocol

/-! ## Command engine (Protocol) -/

/-- `Protocol::expect_message` over the list of frame payloads delivered
by the frame layer, with the reader state made explicit: decode payloads
in order (a codec error propagates immediately), skipping every message
whose identifier differs from the expected one; on a match return the
message together with the frames not yet consumed. `none` models the
blocking read an exhausted list would cause. -/
def expect_message (expected : MessageId) :
    List (List Nat) → Option (Except PlError (Message × List (List Nat)))
  | [] => none
  | p :: rest =>
    match Message.from_payload p with
    | .error e => some (.error e)
    | .ok msg =>
      if msg.to_message_id = expected then some (.ok (msg, rest))
      else expect_message expected rest

/-- Loop body of `Protocol::wait_for_mac_ack`, with fuel (one unit per
received frame, which each iteration strictly consumes): keep expecting
ACK messages until one carries the expected socket id; ACKs with a
different id or with no id at all are skipped. -/
def wait_for_mac_ack_aux (expected : Nat) :
    Nat → List (List Nat) → Option (Except PlError Unit)
  | 0, _ => none
  | fuel + 1, frames =>
    match expect_message .Ack frames with
    | none => none
    | some (.error e) => some (.error e)
    | some (.ok (msg, rest)) =>
      match msg with
      | .Ack _ ack =>
        match ack.mac with
        | some m =>
          if m = expected then some (.ok ())
          else wait_for_mac_ack_aux expected fuel rest
        | none => wait_for_mac_ack_aux expected fuel rest
      | _ => wait_for_mac_ack_aux expected fuel rest

/-- `Protocol::wait_for_mac_ack` on a list of incoming frame payloads.
`Protocol::switch` and `Protocol::set_clock` succeed exactly when this
await step succeeds for the socket id they addressed. -/
def wait_for_mac_ack (expected : Nat) (frames : List (List Nat)) : Option (Except PlError Unit) :=
  wait_for_mac_ack_aux expected frames.length frames

/-- The attempt loop shared textually by `Protocol::send_and_expect` and
`Protocol::send_and_expect_ack`, with the transport interaction
abstracted: `attempt k` is the outcome of the k-th send-then-await
exchange (every loop iteration first sends the request once, then
awaits). `retries` is the remaining retry budget and `k` the number of
sends already performed. Returns the total number of send attempts
together with the final outcome: success returns immediately, an error
with an exhausted budget is returned, an io timeout consumes one retry
and loops, and any other error is surfaced immediately. -/
def retryLoop (attempt : Nat → Except PlError α) : Nat → Nat → Nat × Except PlError α
  | retries, k =>
    match attempt k, retries with
    | .ok a, _ => (k + 1, .ok a)
    | .error e, 0 => (k + 1, .error e)
    | .error e, r + 1 =>
      match e with
      | .io .timedOut => retryLoop attempt r (k + 1)
      | _ => (k + 1, .error e)

/-- `Protocol::send_and_expect_ack` (used by `switch` and `set_clock`):
the retry loop around send-then-`wait_for_mac_ack`, starting with the
configured retry budget and no sends performed. -/
def send_and_expect_ack (attempt : Nat → Except PlError Unit) (retries : Nat) :
    Nat × Except PlError Unit :=
  retryLoop attempt retries 0

/-- `Protocol::send_and_expect` (used by every non-ACK command): the same
retry loop around send-then-`expect_message`. -/
def send_and_expect (attempt : Nat → Except PlError Message) (retries : Nat) :
    Nat × Except PlError Message :=
  retryLoop attempt retries 0

/-! ## C7: log index/address bijection -/

/-- C7: for every index `i` in `[0, 2^20)`, converting the index to a
flash address (`i * 32 + 278528`) and back yields `i`; moreover no u32
wrap-around occurs in that range (`pos2addr` computes `i * 32 + 278528`
exactly). -/
theorem log_index_address_bijection (i : Nat) (h : i < 2 ^ 20) :
    addr2pos (pos2addr i) = i ∧ pos2addr i = i * 32 + 278528 := by
  unfold pos2addr addr2pos ADDR_OFFS BYTES_PER_POS
  omega

/-- Witness for C7 at the concrete index 77. -/
theorem log_index_address_bijection_witness :
    addr2pos (pos2addr 77) = 77 ∧ pos2addr 77 = 77 * 32 + 278528 :=
  log_index_address_bijection 77 (by decide)

/-! ## C8: pulses special case -/

/-- C8: for every calibration and every timespan, a raw pulse count of 0
or 0xFFFF gives corrected pulses-per-second 0, hence watts 0 and kWh 0,
independent of the calibration constants. -/
theorem pulses_special_case (c : ResCalibration) (p ts : Nat)
    (h : p = 0 ∨ p = 65535) :
    (Pulses.new p ts).to_pulses_per_second c = 0 ∧
      (Pulses.new p ts).to_watts c = 0 ∧ (Pulses.new p ts).to_kwh c = 0 := by
  have hpps : (Pulses.new p ts).to_pulses_per_second c = 0 := by
    simp [Pulses.to_pulses_per_second, Pulses.new, h]
  refine ⟨hpps, ?_, ?_⟩ <;>
    simp [Pulses.to_watts, Pulses.to_kwh, Pulses.to_kw, hpps]

/-- Witness for C8: pulse count 0xFFFF over 8 seconds with a nonzero
calibration. -/
theorem pulses_special_case_witness :
    (Pulses.new 65535 8).to_pulses_per_second ⟨1, 2, 3, 4⟩ = 0 ∧
      (Pulses.new 65535 8).to_watts ⟨1, 2, 3, 4⟩ = 0 ∧
      (Pulses.new 65535 8).to_kwh ⟨1, 2, 3, 4⟩ = 0 :=
  pulses_special_case ⟨1, 2, 3, 4⟩ 65535 8 (Or.inr rfl)

/-! ## C10: ClockSet construction safety -/

/-- C10: for every calendar value with day-of-week field in `[0, 6]`,
`ReqClockSet::new_from_tm` terminates without reaching its
`unreachable!()` branch and produces a `day_of_week` in `[1, 7]`, mapping
1..6 to themselves and 0 (Sunday) to 7; and the precondition is required:
a `tm_wday` outside `[0, 6]` (e.g. 7) hits the panic branch. -/
theorem clockset_construction :
    (∀ tm : Tm, 0 ≤ tm.tm_wday → tm.tm_wday ≤ 6 →
      ∃ r, ReqClockSet.new_from_tm tm = some r ∧
        1 ≤ r.day_of_week ∧ r.day_of_week ≤ 7 ∧
        (1 ≤ tm.tm_wday → (r.day_of_week : Int) = tm.tm_wday) ∧
        (tm.tm_wday = 0 → r.day_of_week = 7)) ∧
      ReqClockSet.new_from_tm ⟨0, 0, 0, 0, 0, 0, 7, 0, 0, 0, 0⟩ = none := by
  constructor
  · intro tm h0 h6
    by_cases h1 : 1 ≤ tm.tm_wday ∧ tm.tm_wday ≤ 6
    · have hr : ReqClockSet.new_from_tm tm = some
          { datetime := DateTime.new tm.to_utc, logaddr := none,
            hour := toU8 tm.to_utc.tm_hour, minute := toU8 tm.to_utc.tm_min,
            second := toU8 tm.to_utc.tm_sec, day_of_week := tm.tm_wday.toNat } := by
        simp [ReqClockSet.new_from_tm, h1]
      exact ⟨_, hr, show 1 ≤ tm.tm_wday.toNat by omega,
        show tm.tm_wday.toNat ≤ 7 by omega,
        fun _ => show ((tm.tm_wday.toNat : Nat) : Int) = tm.tm_wday by omega,
        fun _ => show tm.tm_wday.toNat = 7 by omega⟩
    · have hz : tm.tm_wday = 0 := by omega
      have hr : ReqClockSet.new_from_tm tm = some
          { datetime := DateTime.new tm.to_utc, logaddr := none,
            hour := toU8 tm.to_utc.tm_hour, minute := toU8 tm.to_utc.tm_min,
            second := toU8 tm.to_utc.tm_sec, day_of_week := 7 } := by
        simp [ReqClockSet.new_from_tm, h1, hz]
      exact ⟨_, hr, show 1 ≤ 7 by omega, show 7 ≤ 7 by omega,
        fun hw => show ((7 : Nat) : Int) = tm.tm_wday by omega,
        fun _ => show (7 : Nat) = 7 from rfl⟩
  · decide

/-- Witness for C10: Sunday (`tm_wday = 0`) maps to day-of-week 7. -/
theorem clockset_construction_witness :
    ∃ r, ReqClockSet.new_from_tm ⟨30, 15, 12, 4, 5, 115, 0, 0, 0, 0, 0⟩ = some r ∧
      1 ≤ r.day_of_week ∧ r.day_of_week ≤ 7 ∧
      (1 ≤ (0 : Int) → (r.day_of_week : Int) = 0) ∧
      ((0 : Int) = 0 → r.day_of_week = 7) :=
  clockset_construction.1 ⟨30, 15, 12, 4, 5, 115, 0, 0, 0, 0, 0⟩ (by decide) (by decide)

/-! ## C2: retry accounting -/

/-- The retry loop under an always-timing-out transport, for any starting
attempt index. -/
theorem retryLoop_all_timeout {α : Type} (attempt : Nat → Except PlError α)
    (h : ∀ k, attempt k = .error (.io .timedOut)) :
    ∀ r k, retryLoop attempt r k = (k + r + 1, .error (.io .timedOut)) := by
  intro r
  induction r with
  | zero => intro k; unfold retryLoop; rw [h k]
  | succ r ih =>
    intro k
    unfold retryLoop
    rw [h k]
    simpa [Nat.add_assoc, Nat.add_comm, Nat.add_left_comm] using ih (k + 1)

/-- C2: with `retries = n` set and a transport whose every awaited
response ends in a read timeout, `send_and_expect_ack` (the loop behind
`switch`) performs exactly `n + 1` send attempts and then fails with the
timeout error (the last error observed). -/
theorem retry_accounting (n : Nat) (_hn : n < 256)
    (attempt : Nat → Except PlError Unit)
    (h : ∀ k, attempt k = .error (.io .timedOut)) :
    send_and_expect_ack attempt n = (n + 1, .error (.io .timedOut)) := by
  unfold send_and_expect_ack
  simpa using retryLoop_all_timeout attempt h n 0

/-- Witness for C2 at the default retry count 3: exactly 4 send attempts. -/
theorem retry_accounting_witness :
    send_and_expect_ack (fun _ => .error (.io .timedOut)) DEFAULT_RETRIES =
      (4, .error (.io .timedOut)) :=
  retry_accounting 3 (by decide) _ (fun _ => rfl)

/-! ## C3: ACK addressing -/

/-- When `expect_message` returns a message, that message was decoded from
one of the supplied frames, carries the expected identifier, and the
unconsumed frames are among the supplied ones. -/
theorem expect_message_spec (mid : MessageId) :
    ∀ frames msg rest, expect_message mid frames = some (.ok (msg, rest)) →
      (∃ p ∈ frames, Message.from_payload p = .ok msg) ∧
        msg.to_message_id = mid ∧ ∀ x ∈ rest, x ∈ frames := by
  intro frames
  induction frames with
  | nil => intro msg rest h; simp [expect_message] at h
  | cons p ps ih =>
    intro msg rest h
    unfold expect_message at h
    cases hfp : Message.from_payload p with
    | error e => rw [hfp] at h; simp at h
    | ok mg =>
      rw [hfp] at h
      by_cases hm : mg.to_message_id = mid
      · simp only [hm, if_true, Option.some_inj] at h
        obtain ⟨hmsg, hrest⟩ : mg = msg ∧ ps = rest := by
          have := h
          simp at this
          exact this
        subst hmsg
        subst hrest
        exact ⟨⟨p, by simp, hfp⟩, hm, fun x hx => by simp [hx]⟩
      · simp only [hm, if_false] at h
        obtain ⟨⟨q, hq, hfpq⟩, hmid, hsub⟩ := ih msg rest h
        exact ⟨⟨q, by simp [hq], hfpq⟩, hmid, fun x hx => by simp [hsub x hx]⟩

/-- The `wait_for_mac_ack` loop succeeds only by finding an ACK frame
carrying exactly the expected socket id, for any fuel. -/
theorem wait_for_mac_ack_aux_spec (m : Nat) :
    ∀ fuel frames, wait_for_mac_ack_aux m fuel frames = some (.ok ()) →
      ∃ p ∈ frames, ∃ hdr ack,
        Message.from_payload p = .ok (.Ack hdr ack) ∧ ack.mac = some m := by
  intro fuel
  induction fuel with
  | zero => intro frames h; simp [wait_for_mac_ack_aux] at h
  | succ fuel ih =>
    intro frames h
    unfold wait_for_mac_ack_aux at h
    split at h
    · simp at h
    · simp at h
    · rename_i msg rest heq
      obtain ⟨⟨p, hp, hfp⟩, hmid, hsub⟩ := expect_message_spec _ _ _ _ heq
      split at h
      · rename_i hdr ack
        split at h
        · rename_i mm hmac
          split at h
          · rename_i hmm
            exact ⟨p, hp, hdr, ack, hfp, by rw [hmac, hmm]⟩
          · obtain ⟨q, hq, hdr2, ack2, hfq, hm2⟩ := ih rest h
            exact ⟨q, hsub q hq, hdr2, ack2, hfq, hm2⟩
        · obtain ⟨q, hq, hdr2, ack2, hfq, hm2⟩ := ih rest h
          exact ⟨q, hsub q hq, hdr2, ack2, hfq, hm2⟩
      · obtain ⟨q, hq, hdr2, ack2, hfq, hm2⟩ := ih rest h
        exact ⟨q, hsub q hq, hdr2, ack2, hfq, hm2⟩

/-- C3: `wait_for_mac_ack` (the await step of `switch` and `set_clock`)
returns success only if the incoming frame sequence contains an ACK
message carrying a socket id equal to the requested one; ACK messages
with a different id or with no id are skipped and never cause success. -/
theorem ack_addressing (m : Nat) (frames : List (List Nat))
    (h : wait_for_mac_ack m frames = some (.ok ())) :
    ∃ p ∈ frames, ∃ hdr ack,
      Message.from_payload p = .ok (.Ack hdr ack) ∧ ack.mac = some m :=
  wait_for_mac_ack_aux_spec m frames.length frames h

/-- An ACK frame payload addressed to socket `0x0123456789ABCDEF`
(identifier 0000, counter 0001, status 00C1, then the 16-hex socket id). -/
def ackFrameExample : List Nat :=
  [48, 48, 48, 48, 48, 48, 48, 49, 48, 48, 67, 49,
   48, 49, 50, 51, 52, 53, 54, 55, 56, 57, 65, 66, 67, 68, 69, 70]

/-- Witness for C3: a successful wait on a single matching ACK frame. -/
theorem ack_addressing_witness :
    ∃ p ∈ [ackFrameExample], ∃ hdr ack,
      Message.from_payload p = .ok (.Ack hdr ack) ∧ ack.mac = some 0x0123456789ABCDEF :=
  ack_addressing 0x0123456789ABCDEF [ackFrameExample] rfl

/-! ## C4: unknown-identifier handling -/

/-- The wire identifiers of the enumerated `MessageId` set. -/
def knownWireIds : List Nat :=
  [ACK, REQ_INITIALIZE, RES_INITIALIZE, REQ_INFO, RES_INFO, REQ_SWITCH, REQ_CALIBRATION,
   RES_CALIBRATION, REQ_POWER_BUFFER, RES_POWER_BUFFER, REQ_POWER_USE, RES_POWER_USE,
   REQ_CLOCK_INFO, RES_CLOCK_INFO, REQ_CLOCK_SET]

/-- `MessageId::new` collapses every identifier outside the enumerated
set to `MessageId::Ack`. -/
theorem MessageId_new_unknown (v : Nat) (h : v ∉ knownWireIds) : MessageId.new v = .Ack := by
  simp only [knownWireIds, List.mem_cons, List.not_mem_nil, or_false, not_or] at h
  obtain ⟨h1, h2, h3, h4, h5, h6, h7, h8, h9, h10, h11, h12, h13, h14, h15⟩ := h
  unfold MessageId.new
  simp [h1, h2, h3, h4, h5, h6, h7, h8, h9, h10, h11, h12, h13, h14, h15]

/-- Counterexample to C4 as stated: the payload `99990001` ++ `1234`
carries the identifier 0x9999, which is outside the enumerated set, yet
`Message::from_payload` decodes it successfully (as an ACK with status
0x1234), instead of returning a codec error. -/
theorem unknown_id_rejection_counterexample :
    Message.from_payload [57, 57, 57, 57, 48, 48, 48, 49, 49, 50, 51, 52] =
      .ok (.Ack ⟨.Ack, 1, 0⟩ ⟨0x1234, none⟩) := rfl

/-- C4 (amended): a received payload whose identifier field denotes a
value outside the enumerated identifier set is not rejected as such:
`MessageId::new` collapses the identifier to ACK, and
`Message::from_payload` then either fails for a reason of its own or
decodes the payload as an ACK message — it never yields a message of any
other variant. -/
theorem unknown_id_decodes_as_ack (p rest : List Nat) (v : Nat)
    (hdec : decode 2 p = .ok (rest, v)) (hunk : v ∉ knownWireIds) :
    MessageId.new v = .Ack ∧
      ((∃ e, Message.from_payload p = .error e) ∨
        ∃ hdr ack, Message.from_payload p = .ok (.Ack hdr ack)) := by
  have hids := MessageId_new_unknown v hunk
  refine ⟨hids, ?_⟩
  unfold Message.from_payload
  rw [hdec]
  simp only [bind, Except.bind]
  cases h2 : decode 2 rest with
  | error e => exact Or.inl ⟨e, rfl⟩
  | ok pr =>
    obtain ⟨d2, counter⟩ := pr
    simp only [hids, ne_eq, not_true_eq_false, if_false, reduceIte, pure, Except.pure]
    cases h3 : Ack.new d2 with
    | error e => exact Or.inl ⟨e, rfl⟩
    | ok ack => exact Or.inr ⟨_, _, rfl⟩

/-- Witness for C4's amended theorem at the counterexample payload. -/
theorem unknown_id_decodes_as_ack_witness :
    MessageId.new 0x9999 = .Ack ∧
      ((∃ e, Message.from_payload [57, 57, 57, 57, 48, 48, 48, 49, 49, 50, 51, 52] = .error e) ∨
        ∃ hdr ack,
          Message.from_payload [57, 57, 57, 57, 48, 48, 48, 49, 49, 50, 51, 52] =
            .ok (.Ack hdr ack)) :=
  unknown_id_decodes_as_ack _ [48, 48, 48, 49, 49, 50, 51, 52] 0x9999 rfl (by decide)

/-! ## Cursor lemmas -/

/-- A successful `fromStrRadix16` value is within the type's range. -/
theorem fromStrRadix16_lt {cs : List Nat} {bound v : Nat} (hb : 0 < bound)
    (h : fromStrRadix16 cs bound = some v) : v < bound := by
  unfold fromStrRadix16 at h
  split at h
  · exact absurd h (by simp)
  · split at h
    · split at h
      · exact absurd h (by simp)
      · cases hp : parseHexAux _ 0 with
        | none => rw [hp] at h; exact absurd h (by simp)
        | some w =>
          rw [hp] at h
          simp only [Option.some_bind] at h
          split at h
          · rename_i hw; cases h; omega
          · exact absurd h (by simp)
    · split at h
      · split at h
        · exact absurd h (by simp)
        · cases hp : parseHexAux _ 0 with
          | none => rw [hp] at h; exact absurd h (by simp)
          | some w =>
            rw [hp] at h
            simp only [Option.some_bind] at h
            split at h
            · cases h; omega
            · exact absurd h (by simp)
      · cases hp : parseHexAux _ 0 with
        | none => rw [hp] at h; exact absurd h (by simp)
        | some w =>
          rw [hp] at h
          simp only [Option.some_bind] at h
          split at h
          · rename_i hw; cases h; omega
          · exact absurd h (by simp)

/-- Inversion of a successful `consume`. -/
theorem consume_ok {b c r : List Nat} {n : Nat} (h : consume b n = .ok (c, r)) :
    c = b.take n ∧ r = b.drop n ∧ n ≤ b.length := by
  unfold consume at h
  split at h
  · exact absurd h (by simp)
  · rename_i hlen
    obtain ⟨hc, hr⟩ : b.take n = c ∧ b.drop n = r := by
      have := h
      simp at this
      exact this
    exact ⟨hc.symm, hr.symm, by omega⟩

/-- Inversion of a successful `decode`: the cursor advances by exactly
`2 * size` characters, the value fits the type, and the consumed
characters parse to the value. -/
theorem decode_ok {s : Nat} {b r : List Nat} {v : Nat} (h : decode s b = .ok (r, v)) :
    r = b.drop (2 * s) ∧ v < 2 ^ (8 * s) ∧ 2 * s ≤ b.length ∧
      fromStrRadix16 (b.take (2 * s)) (2 ^ (8 * s)) = some v := by
  unfold decode at h
  cases hcon : consume b (2 * s) with
  | error e => rw [hcon] at h; exact absurd h (by simp [bind, Except.bind])
  | ok p =>
    obtain ⟨chunk, rest⟩ := p
    rw [hcon] at h
    simp only [bind, Except.bind] at h
    obtain ⟨hc, hr, hlen⟩ := consume_ok hcon
    subst hc
    subst hr
    split at h
    · exact absurd h (by simp)
    · rename_i v2 hparse
      obtain ⟨h1, h2⟩ : b.drop (2 * s) = r ∧ v2 = v := by
        have := h
        simp at this
        exact this
      subst h2
      exact ⟨h1.symm, fromStrRadix16_lt (Nat.pos_pow_of_pos _ (by omega)) hparse, hlen, hparse⟩

/-- `decode` is stable under extending the buffer: the same value is
decoded and the extension lands in the remainder. -/
theorem decode_extends {s : Nat} {b r : List Nat} {v : Nat} (e : List Nat)
    (h : decode s b = .ok (r, v)) : decode s (b ++ e) = .ok (r ++ e, v) := by
  obtain ⟨hr, _hv, hlen, hparse⟩ := decode_ok h
  have hcon : consume (b ++ e) (2 * s) = .ok (b.take (2 * s), b.drop (2 * s) ++ e) := by
    unfold consume
    rw [if_neg (by simp [List.length_append]; omega)]
    rw [List.take_append_of_le_length hlen, List.drop_append_of_le_length hlen]
  unfold decode
  rw [hcon]
  simp only [bind, Except.bind]
  rw [hparse, hr]

/-- Inversion of a successful `decode_f32`. -/
theorem decode_f32_ok {b r : List Nat} {v : Rat} (h : decode_f32 b = .ok (r, v)) :
    ∃ bits, decode 4 b = .ok (r, bits) ∧ v = f32FromBits bits := by
  unfold decode_f32 at h
  cases hd : decode 4 b with
  | error e => rw [hd] at h; exact absurd h (by simp [bind, Except.bind])
  | ok p =>
    obtain ⟨rest, bits⟩ := p
    rw [hd] at h
    simp only [bind, Except.bind] at h
    obtain ⟨h1, h2⟩ : rest = r ∧ f32FromBits bits = v := by
      have := h
      simp at this
      exact this
    subst h1
    exact ⟨bits, rfl, h2.symm⟩

/-- `decode_f32` is stable under extending the buffer. -/
theorem decode_f32_extends {b r : List Nat} {v : Rat} (e : List Nat)
    (h : decode_f32 b = .ok (r, v)) : decode_f32 (b ++ e) = .ok (r ++ e, v) := by
  obtain ⟨bits, hd, hv⟩ := decode_f32_ok h
  unfold decode_f32
  rw [decode_extends e hd]
  simp only [bind, Except.bind]
  rw [hv]

/-- Inversion of a successful `decode_string`. -/
theorem decode_string_ok {n : Nat} {b r chunk : List Nat}
    (h : decode_string n b = .ok (r, chunk)) :
    chunk = b.take n ∧ r = b.drop n ∧ n ≤ b.length ∧ utf8Valid chunk = true := by
  unfold decode_string at h
  cases hcon : consume b n with
  | error e => rw [hcon] at h; exact absurd h (by simp [bind, Except.bind])
  | ok p =>
    obtain ⟨c, rest⟩ := p
    rw [hcon] at h
    simp only [bind, Except.bind] at h
    obtain ⟨hc, hr, hlen⟩ := consume_ok hcon
    split at h
    · rename_i hval
      obtain ⟨h1, h2⟩ : rest = r ∧ c = chunk := by
        have := h
        simp at this
        exact this
      subst h1
      subst h2
      exact ⟨hc, hr, hlen, hval⟩
    · exact absurd h (by simp)

/-- `decode_string` is stable under extending the buffer. -/
theorem decode_string_extends {n : Nat} {b r chunk : List Nat} (e : List Nat)
    (h : decode_string n b = .ok (r, chunk)) :
    decode_string n (b ++ e) = .ok (r ++ e, chunk) := by
  obtain ⟨hc, hr, hlen, hval⟩ := decode_string_ok h
  have hcon : consume (b ++ e) n = .ok (b.take n, b.drop n ++ e) := by
    unfold consume
    rw [if_neg (by simp [List.length_append]; omega)]
    rw [List.take_append_of_le_length hlen, List.drop_append_of_le_length hlen]
  unfold decode_string
  rw [hcon]
  simp only [bind, Except.bind]
  rw [← hc, if_pos hval, hr]

/-- Inversion of a successful `decode_datetime`: the cursor advances by
the 8 characters of the echoed `u32`. -/
theorem decode_datetime_ok {b r : List Nat} {dt : DateTime}
    (h : decode_datetime b = .ok (r, dt)) : r = b.drop 8 ∧ 8 ≤ b.length := by
  unfold decode_datetime at h
  cases h0 : decode 4 b with
  | error e => rw [h0] at h; exact absurd h (by simp [bind, Except.bind])
  | ok p0 =>
    obtain ⟨rest, echo⟩ := p0
    rw [h0] at h
    simp only [bind, Except.bind] at h
    obtain ⟨hrest, _, hlen, _⟩ := decode_ok h0
    cases h1 : decode 1 b with
    | error e => rw [h1] at h; exact absurd h (by simp)
    | ok p1 =>
      obtain ⟨r1, year⟩ := p1
      rw [h1] at h
      simp only [] at h
      cases h2 : decode 1 r1 with
      | error e => rw [h2] at h; exact absurd h (by simp)
      | ok p2 =>
        obtain ⟨r2, months⟩ := p2
        rw [h2] at h
        simp only [] at h
        cases h3 : decode 2 r2 with
        | error e => rw [h3] at h; exact absurd h (by simp)
        | ok p3 =>
          obtain ⟨r3, minutes⟩ := p3
          rw [h3] at h
          simp only [] at h
          obtain ⟨hre, _⟩ : rest = r ∧ DateTime.new_raw year months minutes = dt := by
            have := h
            simp at this
            exact this
          subst hre
          exact ⟨hrest, by omega⟩

/-- `decode_datetime` is stable under extending the buffer. -/
theorem decode_datetime_extends {b r : List Nat} {dt : DateTime} (e : List Nat)
    (h : decode_datetime b = .ok (r, dt)) : decode_datetime (b ++ e) = .ok (r ++ e, dt) := by
  unfold decode_datetime at h
  cases h0 : decode 4 b with
  | error err => rw [h0] at h; exact absurd h (by simp [bind, Except.bind])
  | ok p0 =>
    obtain ⟨rest, echo⟩ := p0
    rw [h0] at h
    simp only [bind, Except.bind] at h
    cases h1 : decode 1 b with
    | error err => rw [h1] at h; exact absurd h (by simp)
    | ok p1 =>
      obtain ⟨r1, year⟩ := p1
      rw [h1] at h
      simp only [] at h
      cases h2 : decode 1 r1 with
      | error err => rw [h2] at h; exact absurd h (by simp)
      | ok p2 =>
        obtain ⟨r2, months⟩ := p2
        rw [h2] at h
        simp only [] at h
        cases h3 : decode 2 r2 with
        | error err => rw [h3] at h; exact absurd h (by simp)
        | ok p3 =>
          obtain ⟨r3, minutes⟩ := p3
          rw [h3] at h
          simp only [] at h
          obtain ⟨hre, hdt⟩ : rest = r ∧ DateTime.new_raw year months minutes = dt := by
            have := h
            simp at this
            exact this
          unfold decode_datetime
          rw [decode_extends e h0]
          simp only [bind, Except.bind]
          rw [decode_extends e h1]
          simp only []
          rw [decode_extends e h2]
          simp only []
          rw [decode_extends e h3]
          simp only []
          rw [hre, hdt]

/-- A non-empty cursor fails the final check. -/
theorem check_fully_consumed_ne {e : List Nat} (he : e ≠ []) :
    check_fully_consumed e = .error (.io .other) := by
  unfold check_fully_consumed
  rw [if_neg (by simp [List.length_eq_zero]; exact he)]

/-- Inversion of a successful final check. -/
theorem check_fully_consumed_ok {b : List Nat} {u : Unit}
    (h : check_fully_consumed b = .ok u) : b = [] := by
  unfold check_fully_consumed at h
  split at h
  · rename_i hb; exact List.length_eq_zero.mp hb
  · exact absurd h (by simp)

/-- A well-formed ClockInfo body extended with trailing bytes fails the
cursor-exhaustion check. -/
theorem ResClockInfo_new_extends {b e : List Nat} {res : ResClockInfo}
    (h : ResClockInfo.new b = .ok res) (he : e ≠ []) :
    ResClockInfo.new (b ++ e) = .error (.io .other) := by
  unfold ResClockInfo.new at h ⊢
  simp only [bind, Except.bind] at h ⊢
  cases h1 : decode 1 b with
  | error err => rw [h1] at h; simp at h
  | ok p1 =>
  obtain ⟨d1, hour⟩ := p1
  rw [h1] at h
  rw [decode_extends e h1]
  simp only [] at h ⊢
  cases h2 : decode 1 d1 with
  | error err => rw [h2] at h; simp at h
  | ok p2 =>
  obtain ⟨d2, minute⟩ := p2
  rw [h2] at h
  rw [decode_extends e h2]
  simp only [] at h ⊢
  cases h3 : decode 1 d2 with
  | error err => rw [h3] at h; simp at h
  | ok p3 =>
  obtain ⟨d3, second⟩ := p3
  rw [h3] at h
  rw [decode_extends e h3]
  simp only [] at h ⊢
  cases h4 : decode 1 d3 with
  | error err => rw [h4] at h; simp at h
  | ok p4 =>
  obtain ⟨d4, dow⟩ := p4
  rw [h4] at h
  rw [decode_extends e h4]
  simp only [] at h ⊢
  cases h5 : decode 1 d4 with
  | error err => rw [h5] at h; simp at h
  | ok p5 =>
  obtain ⟨d5, u1⟩ := p5
  rw [h5] at h
  rw [decode_extends e h5]
  simp only [] at h ⊢
  cases h6 : decode 2 d5 with
  | error err => rw [h6] at h; simp at h
  | ok p6 =>
  obtain ⟨d6, u2⟩ := p6
  rw [h6] at h
  rw [decode_extends e h6]
  simp only [] at h ⊢
  have hnil : d6 = [] := by
    cases hc : check_fully_consumed d6 with
    | error err => rw [hc] at h; simp at h
    | ok u => exact check_fully_consumed_ok hc
  subst hnil
  rw [List.nil_append, check_fully_consumed_ne he]

/-- A well-formed Initialize body extended with trailing bytes fails the
cursor-exhaustion check. -/
theorem ResInitialize_new_extends {b e : List Nat} {res : ResInitialize}
    (h : ResInitialize.new b = .ok res) (he : e ≠ []) :
    ResInitialize.new (b ++ e) = .error (.io .other) := by
  unfold ResInitialize.new at h ⊢
  simp only [bind, Except.bind] at h ⊢
  cases h1 : decode 1 b with
  | error err => rw [h1] at h; simp at h
  | ok p1 =>
  obtain ⟨d1, x1⟩ := p1
  rw [h1] at h
  rw [decode_extends e h1]
  simp only [] at h ⊢
  cases h2 : decode 1 d1 with
  | error err => rw [h2] at h; simp at h
  | ok p2 =>
  obtain ⟨d2, x2⟩ := p2
  rw [h2] at h
  rw [decode_extends e h2]
  simp only [] at h ⊢
  cases h3 : decode 8 d2 with
  | error err => rw [h3] at h; simp at h
  | ok p3 =>
  obtain ⟨d3, x3⟩ := p3
  rw [h3] at h
  rw [decode_extends e h3]
  simp only [] at h ⊢
  cases h4 : decode 2 d3 with
  | error err => rw [h4] at h; simp at h
  | ok p4 =>
  obtain ⟨d4, x4⟩ := p4
  rw [h4] at h
  rw [decode_extends e h4]
  simp only [] at h ⊢
  cases h5 : decode 1 d4 with
  | error err => rw [h5] at h; simp at h
  | ok p5 =>
  obtain ⟨d5, x5⟩ := p5
  rw [h5] at h
  rw [decode_extends e h5]
  simp only [] at h ⊢
  have hnil : d5 = [] := by
    cases hc : check_fully_consumed d5 with
    | error err => rw [hc] at h; simp at h
    | ok u => exact check_fully_consumed_ok hc
  subst hnil
  rw [List.nil_append, check_fully_consumed_ne he]

/-- A well-formed Calibration body extended with trailing bytes fails the
cursor-exhaustion check. -/
theorem ResCalibration_new_extends {b e : List Nat} {res : ResCalibration}
    (h : ResCalibration.new b = .ok res) (he : e ≠ []) :
    ResCalibration.new (b ++ e) = .error (.io .other) := by
  unfold ResCalibration.new at h ⊢
  simp only [bind, Except.bind] at h ⊢
  cases h1 : decode_f32 b with
  | error err => rw [h1] at h; simp at h
  | ok p1 =>
  obtain ⟨d1, x1⟩ := p1
  rw [h1] at h
  rw [decode_f32_extends e h1]
  simp only [] at h ⊢
  cases h2 : decode_f32 d1 with
  | error err => rw [h2] at h; simp at h
  | ok p2 =>
  obtain ⟨d2, x2⟩ := p2
  rw [h2] at h
  rw [decode_f32_extends e h2]
  simp only [] at h ⊢
  cases h3 : decode_f32 d2 with
  | error err => rw [h3] at h; simp at h
  | ok p3 =>
  obtain ⟨d3, x3⟩ := p3
  rw [h3] at h
  rw [decode_f32_extends e h3]
  simp only [] at h ⊢
  cases h4 : decode_f32 d3 with
  | error err => rw [h4] at h; simp at h
  | ok p4 =>
  obtain ⟨d4, x4⟩ := p4
  rw [h4] at h
  rw [decode_f32_extends e h4]
  simp only [] at h ⊢
  have hnil : d4 = [] := by
    cases hc : check_fully_consumed d4 with
    | error err => rw [hc] at h; simp at h
    | ok u => exact check_fully_consumed_ok hc
  subst hnil
  rw [List.nil_append, check_fully_consumed_ne he]

/-- A well-formed PowerUse body extended with trailing bytes fails the
cursor-exhaustion check. -/
theorem ResPowerUse_new_extends {b e : List Nat} {res : ResPowerUse}
    (h : ResPowerUse.new b = .ok res) (he : e ≠ []) :
    ResPowerUse.new (b ++ e) = .error (.io .other) := by
  unfold ResPowerUse.new at h ⊢
  simp only [bind, Except.bind] at h ⊢
  cases h1 : decode 2 b with
  | error err => rw [h1] at h; simp at h
  | ok p1 =>
  obtain ⟨d1, x1⟩ := p1
  rw [h1] at h
  rw [decode_extends e h1]
  simp only [] at h ⊢
  cases h2 : decode 2 d1 with
  | error err => rw [h2] at h; simp at h
  | ok p2 =>
  obtain ⟨d2, x2⟩ := p2
  rw [h2] at h
  rw [decode_extends e h2]
  simp only [] at h ⊢
  cases h3 : decode 4 d2 with
  | error err => rw [h3] at h; simp at h
  | ok p3 =>
  obtain ⟨d3, x3⟩ := p3
  rw [h3] at h
  rw [decode_extends e h3]
  simp only [] at h ⊢
  cases h4 : decode 2 d3 with
  | error err => rw [h4] at h; simp at h
  | ok p4 =>
  obtain ⟨d4, x4⟩ := p4
  rw [h4] at h
  rw [decode_extends e h4]
  simp only [] at h ⊢
  cases h5 : decode 2 d4 with
  | error err => rw [h5] at h; simp at h
  | ok p5 =>
  obtain ⟨d5, x5⟩ := p5
  rw [h5] at h
  rw [decode_extends e h5]
  simp only [] at h ⊢
  cases h6 : decode 2 d5 with
  | error err => rw [h6] at h; simp at h
  | ok p6 =>
  obtain ⟨d6, x6⟩ := p6
  rw [h6] at h
  rw [decode_extends e h6]
  simp only [] at h ⊢
  have hnil : d6 = [] := by
    cases hc : check_fully_consumed d6 with
    | error err => rw [hc] at h; simp at h
    | ok u => exact check_fully_consumed_ok hc
  subst hnil
  rw [List.nil_append, check_fully_consumed_ne he]

/-- A well-formed Info body extended with trailing bytes fails the
cursor-exhaustion check; moreover the decoded `last_logaddr` is the
`addr2pos` image of the `u32` at character offset 8 of the body. -/
theorem ResInfo_new_props {b e : List Nat} {res : ResInfo}
    (h : ResInfo.new b = .ok res) (he : e ≠ []) :
    ResInfo.new (b ++ e) = .error (.io .other) ∧
      ∃ r a, decode 4 (b.drop 8) = .ok (r, a) ∧ a < 2 ^ 32 ∧
        res.last_logaddr = addr2pos a := by
  unfold ResInfo.new at h ⊢
  simp only [bind, Except.bind] at h ⊢
  cases h1 : decode_datetime b with
  | error err => rw [h1] at h; simp at h
  | ok p1 =>
  obtain ⟨d1, dt⟩ := p1
  rw [h1] at h
  rw [decode_datetime_extends e h1]
  simp only [] at h ⊢
  obtain ⟨hd1, _⟩ := decode_datetime_ok h1
  subst hd1
  cases h2 : decode 4 (b.drop 8) with
  | error err => rw [h2] at h; simp at h
  | ok p2 =>
  obtain ⟨d2, la⟩ := p2
  rw [h2] at h
  rw [decode_extends e h2]
  simp only [] at h ⊢
  cases h3 : decode 1 d2 with
  | error err => rw [h3] at h; simp at h
  | ok p3 =>
  obtain ⟨d3, relay⟩ := p3
  rw [h3] at h
  rw [decode_extends e h3]
  simp only [] at h ⊢
  cases h4 : decode 1 d3 with
  | error err => rw [h4] at h; simp at h
  | ok p4 =>
  obtain ⟨d4, hz⟩ := p4
  rw [h4] at h
  rw [decode_extends e h4]
  simp only [] at h ⊢
  cases h5 : decode_string 12 d4 with
  | error err => rw [h5] at h; simp at h
  | ok p5 =>
  obtain ⟨d5, hw⟩ := p5
  rw [h5] at h
  rw [decode_string_extends e h5]
  simp only [] at h ⊢
  cases h6 : decode 4 d5 with
  | error err => rw [h6] at h; simp at h
  | ok p6 =>
  obtain ⟨d6, fw⟩ := p6
  rw [h6] at h
  rw [decode_extends e h6]
  simp only [] at h ⊢
  cases h7 : decode 1 d6 with
  | error err => rw [h7] at h; simp at h
  | ok p7 =>
  obtain ⟨d7, unk⟩ := p7
  rw [h7] at h
  rw [decode_extends e h7]
  simp only [] at h ⊢
  have hnil : d7 = [] := by
    cases hc : check_fully_consumed d7 with
    | error err => rw [hc] at h; simp at h
    | ok u => exact check_fully_consumed_ok hc
  subst hnil
  rw [List.nil_append, check_fully_consumed_ne he]
  refine ⟨rfl, d2, la, rfl, (decode_ok h2).2.1, ?_⟩
  rw [check_fully_consumed] at h
  simp only [List.length_nil, if_pos rfl] at h
  have hres : ({ datetime := dt, last_logaddr := addr2pos la, relay_state := relay ≠ 0,
                 hz := if hz = 133 then 50 else if hz = 197 then 60 else 0,
                 hw_ver := hw, fw_ver := toI32 fw, unknown := unk } : ResInfo) = res := by
    simpa [pure, Except.pure] using h
  rw [← hres]

/-- A well-formed PowerBuffer body extended with trailing bytes fails the
cursor-exhaustion check; moreover the decoded `logaddr` is the `addr2pos`
image of the `u32` at character offset 64 of the body. -/
theorem ResPowerBuffer_new_props {b e : List Nat} {res : ResPowerBuffer}
    (h : ResPowerBuffer.new b = .ok res) (he : e ≠ []) :
    ResPowerBuffer.new (b ++ e) = .error (.io .other) ∧
      ∃ r a, decode 4 (b.drop 64) = .ok (r, a) ∧ a < 2 ^ 32 ∧
        res.logaddr = addr2pos a := by
  unfold ResPowerBuffer.new at h ⊢
  simp only [bind, Except.bind] at h ⊢
  cases h1 : decode_datetime b with
  | error err => rw [h1] at h; simp at h
  | ok p1 =>
  obtain ⟨d1, dt1⟩ := p1
  rw [h1] at h
  rw [decode_datetime_extends e h1]
  simp only [] at h ⊢
  obtain ⟨hd1, _⟩ := decode_datetime_ok h1
  subst hd1
  cases h2 : decode 4 (b.drop 8) with
  | error err => rw [h2] at h; simp at h
  | ok p2 =>
  obtain ⟨d2, pl1⟩ := p2
  rw [h2] at h
  rw [decode_extends e h2]
  simp only [] at h ⊢
  obtain ⟨hd2, _, _, _⟩ := decode_ok h2
  subst hd2
  cases h3 : decode_datetime ((b.drop 8).drop 8) with
  | error err => rw [h3] at h; simp at h
  | ok p3 =>
  obtain ⟨d3, dt2⟩ := p3
  rw [h3] at h
  rw [decode_datetime_extends e h3]
  simp only [] at h ⊢
  obtain ⟨hd3, _⟩ := decode_datetime_ok h3
  subst hd3
  cases h4 : decode 4 (((b.drop 8).drop 8).drop 8) with
  | error err => rw [h4] at h; simp at h
  | ok p4 =>
  obtain ⟨d4, pl2⟩ := p4
  rw [h4] at h
  rw [decode_extends e h4]
  simp only [] at h ⊢
  obtain ⟨hd4, _, _, _⟩ := decode_ok h4
  subst hd4
  cases h5 : decode_datetime ((((b.drop 8).drop 8).drop 8).drop 8) with
  | error err => rw [h5] at h; simp at h
  | ok p5 =>
  obtain ⟨d5, dt3⟩ := p5
  rw [h5] at h
  rw [decode_datetime_extends e h5]
  simp only [] at h ⊢
  obtain ⟨hd5, _⟩ := decode_datetime_ok h5
  subst hd5
  cases h6 : decode 4 (((((b.drop 8).drop 8).drop 8).drop 8).drop 8) with
  | error err => rw [h6] at h; simp at h
  | ok p6 =>
  obtain ⟨d6, pl3⟩ := p6
  rw [h6] at h
  rw [decode_extends e h6]
  simp only [] at h ⊢
  obtain ⟨hd6, _, _, _⟩ := decode_ok h6
  subst hd6
  cases h7 : decode_datetime ((((((b.drop 8).drop 8).drop 8).drop 8).drop 8).drop 8) with
  | error err => rw [h7] at h; simp at h
  | ok p7 =>
  obtain ⟨d7, dt4⟩ := p7
  rw [h7] at h
  rw [decode_datetime_extends e h7]
  simp only [] at h ⊢
  obtain ⟨hd7, _⟩ := decode_datetime_ok h7
  subst hd7
  cases h8 : decode 4 (((((((b.drop 8).drop 8).drop 8).drop 8).drop 8).drop 8).drop 8) with
  | error err => rw [h8] at h; simp at h
  | ok p8 =>
  obtain ⟨d8, pl4⟩ := p8
  rw [h8] at h
  rw [decode_extends e h8]
  simp only [] at h ⊢
  obtain ⟨hd8, _, _, _⟩ := decode_ok h8
  subst hd8
  have hb64 : ((((((((b.drop 8).drop 8).drop 8).drop 8).drop 8).drop 8).drop 8).drop 8)
      = b.drop 64 := by
    simp [List.drop_drop]
  rw [hb64] at h ⊢
  cases h9 : decode 4 (b.drop 64) with
  | error err => rw [h9] at h; simp at h
  | ok p9 =>
  obtain ⟨d9, la⟩ := p9
  rw [h9] at h
  rw [decode_extends e h9]
  simp only [] at h ⊢
  have hnil : d9 = [] := by
    cases hc : check_fully_consumed d9 with
    | error err => rw [hc] at h; simp at h
    | ok u => exact check_fully_consumed_ok hc
  subst hnil
  rw [List.nil_append, check_fully_consumed_ne he]
  refine ⟨rfl, [], la, rfl, (decode_ok h9).2.1, ?_⟩
  rw [check_fully_consumed] at h
  simp only [List.length_nil, if_pos rfl] at h
  have hres : ({ datetime1 := dt1, pulses1 := Pulses.new pl1 3600,
                 datetime2 := dt2, pulses2 := Pulses.new pl2 3600,
                 datetime3 := dt3, pulses3 := Pulses.new pl3 3600,
                 datetime4 := dt4, pulses4 := Pulses.new pl4 3600,
                 logaddr := addr2pos la } : ResPowerBuffer) = res := by
    simpa [pure, Except.pure] using h
  rw [← hres]

/-! ## C9: implicit log-address normalization -/

/-- C9: the `last_logaddr` of a decoded Info response and the `logaddr`
of a decoded PowerBuffer response hold the log index computed from the
wire flash address as `(wire − 278528) / 32` (not the raw address), and a
PowerBuffer request built from index `i` puts `i * 32 + 278528` on the
wire. -/
theorem logaddr_normalization :
    (∀ b res, ResInfo.new b = .ok res →
      ∃ r a, decode 4 (b.drop 8) = .ok (r, a) ∧ res.last_logaddr = addr2pos a ∧
        (278528 ≤ a → res.last_logaddr = (a - 278528) / 32)) ∧
    (∀ b res, ResPowerBuffer.new b = .ok res →
      ∃ r a, decode 4 (b.drop 64) = .ok (r, a) ∧ res.logaddr = addr2pos a ∧
        (278528 ≤ a → res.logaddr = (a - 278528) / 32)) ∧
    (∀ i, i < 2 ^ 20 → ReqPowerBuffer.as_bytes ⟨i⟩ = toHex 8 (i * 32 + 278528)) := by
  refine ⟨?_, ?_, ?_⟩
  · intro b res h
    obtain ⟨-, r, a, hdec, hlt, hla⟩ := ResInfo_new_props (e := [0]) h (by decide)
    refine ⟨r, a, hdec, hla, fun hge => ?_⟩
    rw [hla]
    unfold addr2pos ADDR_OFFS BYTES_PER_POS
    omega
  · intro b res h
    obtain ⟨-, r, a, hdec, hlt, hla⟩ := ResPowerBuffer_new_props (e := [0]) h (by decide)
    refine ⟨r, a, hdec, hla, fun hge => ?_⟩
    rw [hla]
    unfold addr2pos ADDR_OFFS BYTES_PER_POS
    omega
  · intro i hi
    unfold ReqPowerBuffer.as_bytes pos2addr ADDR_OFFS BYTES_PER_POS
    have hmod : (i * 32 + 278528) % 4294967296 = i * 32 + 278528 := by omega
    rw [hmod]

/-- A well-formed Info response body (date-time, flash address 0x44000,
relay on, 50 Hz code, 12-byte hardware string, firmware epoch, spare). -/
def infoBodyExample : List Nat :=
  [48, 66, 48, 54, 48, 48, 48, 48, 48, 48, 48, 52, 52, 48, 48, 48, 48, 49, 56, 53,
   48, 48, 48, 48, 48, 48, 48, 48, 48, 48, 48, 48, 48, 48, 48, 48, 48, 48, 48, 48, 48, 48]

/-- A well-formed PowerBuffer response body (the simulator's canned block
for log address 0x44000). -/
def powerBufferBodyExample : List Nat :=
  [48, 68, 48, 57, 52, 68, 49, 67, 48, 48, 48, 48, 48, 48, 55, 66,
   48, 68, 48, 57, 52, 68, 53, 56, 48, 48, 48, 48, 48, 48, 55, 54,
   48, 68, 48, 57, 52, 68, 57, 52, 48, 48, 48, 48, 48, 48, 55, 49,
   48, 68, 48, 57, 52, 68, 68, 48, 48, 48, 48, 48, 48, 48, 51, 49,
   48, 48, 48, 52, 52, 48, 48, 48]

/-- The decoded Info response of `infoBodyExample`. -/
def infoResExample : ResInfo :=
  { datetime := ⟨11, 6, 0⟩, last_logaddr := 0, relay_state := true, hz := 50,
    hw_ver := [48, 48, 48, 48, 48, 48, 48, 48, 48, 48, 48, 48], fw_ver := 0, unknown := 0 }

/-- The decoded PowerBuffer response of `powerBufferBodyExample`. -/
def powerBufferResExample : ResPowerBuffer :=
  { datetime1 := ⟨13, 9, 19740⟩, pulses1 := ⟨123, 3600⟩,
    datetime2 := ⟨13, 9, 19800⟩, pulses2 := ⟨118, 3600⟩,
    datetime3 := ⟨13, 9, 19860⟩, pulses3 := ⟨113, 3600⟩,
    datetime4 := ⟨13, 9, 19920⟩, pulses4 := ⟨49, 3600⟩, logaddr := 0 }

set_option maxRecDepth 8000

/-- Witness for C9: both response bodies decode with the flash address
0x44000 = 278528 normalized to index 0, and the request for index 1 puts
278560 on the wire. -/
theorem logaddr_normalization_witness :
    (∃ r a, decode 4 (infoBodyExample.drop 8) = .ok (r, a) ∧
      infoResExample.last_logaddr = addr2pos a ∧
      (278528 ≤ a → infoResExample.last_logaddr = (a - 278528) / 32)) ∧
    (∃ r a, decode 4 (powerBufferBodyExample.drop 64) = .ok (r, a) ∧
      powerBufferResExample.logaddr = addr2pos a ∧
      (278528 ≤ a → powerBufferResExample.logaddr = (a - 278528) / 32)) ∧
    ReqPowerBuffer.as_bytes ⟨1⟩ = toHex 8 (1 * 32 + 278528) :=
  ⟨logaddr_normalization.1 infoBodyExample infoResExample (by decide),
   logaddr_normalization.2.1 powerBufferBodyExample powerBufferResExample (by decide),
   logaddr_normalization.2.2 1 (by decide)⟩

/-! ## C5: cursor exhaustion -/

/-- The fixed-length response variants of the message family. -/
def Message.isFixedLength : Message → Bool
  | .ResInitialize .. => true
  | .ResInfo .. => true
  | .ResCalibration .. => true
  | .ResPowerBuffer .. => true
  | .ResPowerUse .. => true
  | .ResClockInfo .. => true
  | _ => false

/-- C5: a well-formed payload of a fixed-length response variant decodes
only by consuming the entire payload (the decoders end with
`check_fully_consumed`), so the same payload extended with any non-empty
run of trailing bytes fails to decode, with a codec error. -/
theorem cursor_exhaustion (p e : List Nat) (msg : Message)
    (h : Message.from_payload p = .ok msg) (hfix : msg.isFixedLength = true)
    (he : e ≠ []) :
    Message.from_payload (p ++ e) = .error (.io .other) := by
  unfold Message.from_payload at h ⊢
  simp only [bind, Except.bind] at h ⊢
  cases h1 : decode 2 p with
  | error err => rw [h1] at h; simp at h
  | ok p1 =>
  obtain ⟨d1, v⟩ := p1
  rw [h1] at h
  rw [decode_extends e h1]
  simp only [] at h ⊢
  cases h2 : decode 2 d1 with
  | error err => rw [h2] at h; simp at h
  | ok p2 =>
  obtain ⟨d2, counter⟩ := p2
  rw [h2] at h
  rw [decode_extends e h2]
  simp only [] at h ⊢
  cases hmid : MessageId.new v with
  | Ack =>
    rw [hmid] at h
    rw [if_neg (show ¬(MessageId.Ack ≠ MessageId.Ack) by decide)] at h ⊢
    simp only [pure, Except.pure] at h ⊢
    cases h4 : Ack.new d2 with
    | error err => rw [h4] at h; simp at h
    | ok a =>
      rw [h4] at h
      simp only [] at h
      have hmsg := h
      simp only [pure, Except.pure, Except.ok.injEq] at hmsg
      rw [← hmsg] at hfix
      simp [Message.isFixedLength] at hfix
  | ReqInitialize =>
    rw [hmid] at h
    rw [if_pos (show MessageId.ReqInitialize ≠ MessageId.Ack by decide)] at h ⊢
    cases h3 : decode 8 d2 with
    | error err => rw [h3] at h; simp at h
    | ok p3 =>
      obtain ⟨d3, mac⟩ := p3
      rw [h3] at h
      simp only [] at h
      simp at h
  | ReqInfo =>
    rw [hmid] at h
    rw [if_pos (show MessageId.ReqInfo ≠ MessageId.Ack by decide)] at h ⊢
    cases h3 : decode 8 d2 with
    | error err => rw [h3] at h; simp at h
    | ok p3 =>
      obtain ⟨d3, mac⟩ := p3
      rw [h3] at h
      simp only [] at h
      simp at h
  | ReqSwitch =>
    rw [hmid] at h
    rw [if_pos (show MessageId.ReqSwitch ≠ MessageId.Ack by decide)] at h ⊢
    cases h3 : decode 8 d2 with
    | error err => rw [h3] at h; simp at h
    | ok p3 =>
      obtain ⟨d3, mac⟩ := p3
      rw [h3] at h
      simp only [] at h
      simp at h
  | ReqCalibration =>
    rw [hmid] at h
    rw [if_pos (show MessageId.ReqCalibration ≠ MessageId.Ack by decide)] at h ⊢
    cases h3 : decode 8 d2 with
    | error err => rw [h3] at h; simp at h
    | ok p3 =>
      obtain ⟨d3, mac⟩ := p3
      rw [h3] at h
      simp only [] at h
      simp at h
  | ReqPowerBuffer =>
    rw [hmid] at h
    rw [if_pos (show MessageId.ReqPowerBuffer ≠ MessageId.Ack by decide)] at h ⊢
    cases h3 : decode 8 d2 with
    | error err => rw [h3] at h; simp at h
    | ok p3 =>
      obtain ⟨d3, mac⟩ := p3
      rw [h3] at h
      simp only [] at h
      simp at h
  | ReqPowerUse =>
    rw [hmid] at h
    rw [if_pos (show MessageId.ReqPowerUse ≠ MessageId.Ack by decide)] at h ⊢
    cases h3 : decode 8 d2 with
    | error err => rw [h3] at h; simp at h
    | ok p3 =>
      obtain ⟨d3, mac⟩ := p3
      rw [h3] at h
      simp only [] at h
      simp at h
  | ReqClockInfo =>
    rw [hmid] at h
    rw [if_pos (show MessageId.ReqClockInfo ≠ MessageId.Ack by decide)] at h ⊢
    cases h3 : decode 8 d2 with
    | error err => rw [h3] at h; simp at h
    | ok p3 =>
      obtain ⟨d3, mac⟩ := p3
      rw [h3] at h
      simp only [] at h
      simp at h
  | ReqClockSet =>
    rw [hmid] at h
    rw [if_pos (show MessageId.ReqClockSet ≠ MessageId.Ack by decide)] at h ⊢
    cases h3 : decode 8 d2 with
    | error err => rw [h3] at h; simp at h
    | ok p3 =>
      obtain ⟨d3, mac⟩ := p3
      rw [h3] at h
      simp only [] at h
      simp at h
  | ResInitialize =>
    rw [hmid] at h
    rw [if_pos (show MessageId.ResInitialize ≠ MessageId.Ack by decide)] at h ⊢
    cases h3 : decode 8 d2 with
    | error err => rw [h3] at h; simp at h
    | ok p3 =>
      obtain ⟨d3, mac⟩ := p3
      rw [h3] at h
      rw [decode_extends e h3]
      simp only [] at h ⊢
      cases h4 : ResInitialize.new d3 with
      | error err => rw [h4] at h; simp at h
      | ok r => rw [ResInitialize_new_extends h4 he]
  | ResInfo =>
    rw [hmid] at h
    rw [if_pos (show MessageId.ResInfo ≠ MessageId.Ack by decide)] at h ⊢
    cases h3 : decode 8 d2 with
    | error err => rw [h3] at h; simp at h
    | ok p3 =>
      obtain ⟨d3, mac⟩ := p3
      rw [h3] at h
      rw [decode_extends e h3]
      simp only [] at h ⊢
      cases h4 : ResInfo.new d3 with
      | error err => rw [h4] at h; simp at h
      | ok r => rw [(ResInfo_new_props h4 he).1]
  | ResCalibration =>
    rw [hmid] at h
    rw [if_pos (show MessageId.ResCalibration ≠ MessageId.Ack by decide)] at h ⊢
    cases h3 : decode 8 d2 with
    | error err => rw [h3] at h; simp at h
    | ok p3 =>
      obtain ⟨d3, mac⟩ := p3
      rw [h3] at h
      rw [decode_extends e h3]
      simp only [] at h ⊢
      cases h4 : ResCalibration.new d3 with
      | error err => rw [h4] at h; simp at h
      | ok r => rw [ResCalibration_new_extends h4 he]
  | ResPowerBuffer =>
    rw [hmid] at h
    rw [if_pos (show MessageId.ResPowerBuffer ≠ MessageId.Ack by decide)] at h ⊢
    cases h3 : decode 8 d2 with
    | error err => rw [h3] at h; simp at h
    | ok p3 =>
      obtain ⟨d3, mac⟩ := p3
      rw [h3] at h
      rw [decode_extends e h3]
      simp only [] at h ⊢
      cases h4 : ResPowerBuffer.new d3 with
      | error err => rw [h4] at h; simp at h
      | ok r => rw [(ResPowerBuffer_new_props h4 he).1]
  | ResPowerUse =>
    rw [hmid] at h
    rw [if_pos (show MessageId.ResPowerUse ≠ MessageId.Ack by decide)] at h ⊢
    cases h3 : decode 8 d2 with
    | error err => rw [h3] at h; simp at h
    | ok p3 =>
      obtain ⟨d3, mac⟩ := p3
      rw [h3] at h
      rw [decode_extends e h3]
      simp only [] at h ⊢
      cases h4 : ResPowerUse.new d3 with
      | error err => rw [h4] at h; simp at h
      | ok r => rw [ResPowerUse_new_extends h4 he]
  | ResClockInfo =>
    rw [hmid] at h
    rw [if_pos (show MessageId.ResClockInfo ≠ MessageId.Ack by decide)] at h ⊢
    cases h3 : decode 8 d2 with
    | error err => rw [h3] at h; simp at h
    | ok p3 =>
      obtain ⟨d3, mac⟩ := p3
      rw [h3] at h
      rw [decode_extends e h3]
      simp only [] at h ⊢
      cases h4 : ResClockInfo.new d3 with
      | error err => rw [h4] at h; simp at h
      | ok r => rw [ResClockInfo_new_extends h4 he]

/-- A complete well-formed ClockInfo response payload (identifier 003F,
counter 0000, socket id, then the 14-character body). -/
def clockInfoPayloadExample : List Nat :=
  [48, 48, 51, 70, 48, 48, 48, 48, 48, 49, 50, 51, 52, 53, 54, 55, 56, 57, 65, 66,
   67, 68, 69, 70, 48, 66, 50, 52, 51, 65, 48, 54, 48, 49, 52, 53, 55, 65]

/-- Witness for C5: the ClockInfo payload decodes, and the same payload
with one extra trailing byte fails with a codec error. -/
theorem cursor_exhaustion_witness :
    Message.from_payload (clockInfoPayloadExample ++ [48]) = .error (.io .other) :=
  cursor_exhaustion clockInfoPayloadExample [48]
    (.ResClockInfo ⟨.ResClockInfo, 0, 0x0123456789ABCDEF⟩ ⟨11, 36, 58, 6, 1, 17786⟩)
    (by decide) rfl (by decide)

/-! ## Frame-layer lemmas -/

/-- One CRC shift step stays within 16 bits. -/
theorem crc16Step_lt (c : Nat) : crc16Step c < 65536 := by
  unfold crc16Step
  split <;> exact Nat.mod_lt _ (by omega)

/-- Iterated CRC shifts stay within 16 bits. -/
theorem crc16Shift_lt : ∀ (n c : Nat), c < 65536 → crc16Shift n c < 65536
  | 0, _, h => h
  | n + 1, c, _ => crc16Shift_lt n (crc16Step c) (crc16Step_lt c)

/-- Folding a byte leaves a 16-bit CRC state. -/
theorem crc16Byte_lt (c b : Nat) : crc16Byte c b < 65536 := by
  unfold crc16Byte
  show crc16Shift 7 (crc16Step _) < 65536
  exact crc16Shift_lt 7 _ (crc16Step_lt _)

/-- The CRC of any byte string is a 16-bit value. -/
theorem crc16_lt (l : List Nat) : crc16 l < 65536 := by
  unfold crc16
  have haux : ∀ (t : List Nat) (acc : Nat), acc < 65536 → t.foldl crc16Byte acc < 65536 := by
    intro t
    induction t with
    | nil => intro acc h; simpa using h
    | cons x xs ih =>
      intro acc _
      rw [List.foldl_cons]
      exact ih _ (crc16Byte_lt acc x)
  exact haux l 0 (by omega)

/-- `toHex` renders exactly `w` characters. -/
theorem toHex_length : ∀ (w v : Nat), (toHex w v).length = w
  | 0, _ => rfl
  | w + 1, v => by unfold toHex; simp [toHex_length w]

/-- Every character `toHex` renders for an in-range value is a decimal
digit or an uppercase hex letter. -/
theorem toHex_mem (w : Nat) : ∀ (v : Nat), v < 16 ^ w →
    ∀ c ∈ toHex w v, (48 ≤ c ∧ c ≤ 57) ∨ (65 ≤ c ∧ c ≤ 70) := by
  induction w with
  | zero => intro v hv c hc; simp [toHex] at hc
  | succ w ih =>
    intro v hv c hc
    have hpow : 0 < 16 ^ w := Nat.pos_pow_of_pos _ (by omega)
    unfold toHex at hc
    rcases List.mem_cons.mp hc with hc | hc
    · have hd : v / 16 ^ w < 16 := by
        rw [Nat.div_lt_iff_lt_mul hpow]
        calc v < 16 ^ (w + 1) := hv
        _ = 16 * 16 ^ w := by ring
      subst hc
      generalize v / 16 ^ w = d at hd
      unfold hexDigitChar
      split <;> omega
    · exact ih _ (Nat.mod_lt _ hpow) c hc

/-- The EOM byte is never a hex character. -/
theorem toHex_not_mem_eom {w v : Nat} (hv : v < 16 ^ w) : (10 : Nat) ∉ toHex w v := by
  intro hc
  rcases toHex_mem w v hv 10 hc with ⟨h1, h2⟩ | ⟨h1, h2⟩ <;> omega

/-- `hexVal` inverts `hexDigitChar` on digit values. -/
theorem hexVal_hexDigitChar {d : Nat} (hd : d < 16) : hexVal (hexDigitChar d) = d := by
  unfold hexVal hexDigitChar hexDigit?
  by_cases h : d < 10
  · rw [if_pos h, if_pos ⟨by omega, by omega⟩]
    simp
  · rw [if_neg h, if_neg (by omega), if_neg (by omega), if_pos ⟨by omega, by omega⟩]
    simp only [Option.getD_some]
    omega

/-- Oring a nibble into a nibble-aligned value is addition. -/
theorem or16 (x d : Nat) (hd : d < 16) : (16 * x) ||| d = 16 * x + d := by
  have h16 : (16 : Nat) = 2 ^ 4 := rfl
  apply Nat.eq_of_testBit_eq
  intro i
  rw [Nat.testBit_or]
  have hR := Nat.testBit_mul_pow_two_add x (show d < 2 ^ 4 from hd) i
  have hL := Nat.testBit_mul_pow_two_add x (show (0 : Nat) < 2 ^ 4 by decide) i
  rw [Nat.add_zero] at hL
  rw [h16, hR, hL]
  by_cases hi : i < 4
  · simp [hi]
  · have hdi : Nat.testBit d i = false := by
      apply Nat.testBit_lt_two_pow
      calc d < 16 := hd
      _ = 2 ^ 4 := rfl
      _ ≤ 2 ^ i := Nat.pow_le_pow_right (by omega) (by omega)
    simp [hi, hdi]

/-- The lenient CRC-field fold recovers a value from its uppercase-hex
rendering, for any accumulator that keeps the result within 16 bits. -/
theorem crcFold_toHex_aux (w : Nat) : ∀ (v acc : Nat), v < 16 ^ w →
    acc * 16 ^ w + v < 65536 →
    (toHex w v).foldl (fun acc c => ((acc <<< 4) % 65536) ||| hexVal c) acc =
      acc * 16 ^ w + v := by
  induction w with
  | zero =>
    intro v acc hv hb
    have hv0 : v = 0 := by omega
    subst hv0
    simp [toHex]
  | succ w ih =>
    intro v acc hv hb
    have hpow : 0 < 16 ^ w := Nat.pos_pow_of_pos _ (by omega)
    have heq : acc * 16 * 16 ^ w = acc * 16 ^ (w + 1) := by ring
    have hacc : acc * 16 < 65536 := by
      have h1 : acc * 16 ≤ acc * 16 * 16 ^ w := Nat.le_mul_of_pos_right _ hpow
      have h2 : acc * 16 * 16 ^ w < 65536 := by rw [heq]; omega
      omega
    have hd : v / 16 ^ w < 16 := by
      rw [Nat.div_lt_iff_lt_mul hpow]
      calc v < 16 ^ (w + 1) := hv
      _ = 16 * 16 ^ w := by ring
    unfold toHex
    rw [List.foldl_cons, hexVal_hexDigitChar hd, Nat.shiftLeft_eq,
      show (2 : Nat) ^ 4 = 16 from rfl,
      Nat.mod_eq_of_lt hacc, Nat.mul_comm acc 16, or16 _ _ hd]
    have harith : (16 * acc + v / 16 ^ w) * 16 ^ w + v % 16 ^ w = acc * 16 ^ (w + 1) + v := by
      have hdm : 16 ^ w * (v / 16 ^ w) + v % 16 ^ w = v := Nat.div_add_mod v (16 ^ w)
      calc (16 * acc + v / 16 ^ w) * 16 ^ w + v % 16 ^ w
          = 16 ^ w * 16 * acc + (16 ^ w * (v / 16 ^ w) + v % 16 ^ w) := by ring
      _ = 16 ^ w * 16 * acc + v := by rw [hdm]
      _ = acc * 16 ^ (w + 1) + v := by ring
    rw [ih (v % 16 ^ w) (16 * acc + v / 16 ^ w) (Nat.mod_lt _ hpow) (by omega), harith]

/-- The lenient 4-character CRC-field fold recovers any 16-bit value from
its uppercase-hex rendering. -/
theorem crcFold_toHex {v : Nat} (hv : v < 65536) :
    (toHex 4 v).foldl (fun acc c => ((acc <<< 4) % 65536) ||| hexVal c) 0 = v := by
  have h := crcFold_toHex_aux 4 v 0 (by omega) (by omega)
  simpa using h

/-- `read_until` stops exactly at the first EOM byte. -/
theorem readUntil_append {xs : List Nat} (h : (10 : Nat) ∉ xs) (r : List Nat) :
    readUntil (xs ++ 10 :: r) = (xs ++ [10], r) := by
  induction xs with
  | nil => simp [readUntil, EOM]
  | cons b t ih =>
    have hb : b ≠ 10 := fun hb => h (by simp [hb])
    have ht : (10 : Nat) ∉ t := fun hx => h (by simp [hx])
    simp only [List.cons_append, readUntil, EOM, if_neg hb]
    rw [show t.append (10 :: r) = t ++ 10 :: r from rfl, ih ht]

/-- `isPrefixOf` holds along an append. -/
theorem isPrefixOf_append_self : ∀ (pat t : List Nat), pat.isPrefixOf (pat ++ t) = true
  | [], _ => by simp [List.isPrefixOf]
  | a :: as, t => by simp [List.isPrefixOf, isPrefixOf_append_self as t]

/-- A prefix is no longer than the list. -/
theorem isPrefixOf_length : ∀ {pat l : List Nat}, pat.isPrefixOf l = true →
    pat.length ≤ l.length
  | [], _, _ => by simp
  | a :: as, [], h => by simp [List.isPrefixOf] at h
  | a :: as, b :: bs, h => by
    simp only [List.isPrefixOf, Bool.and_eq_true] at h
    simpa using isPrefixOf_length h.2

/-- The first window match of a pattern that heads the buffer is at 0. -/
theorem findSub_of_isPrefixOf {pat l : List Nat} (hp : pat.isPrefixOf l = true) :
    findSub pat l = some 0 := by
  unfold findSub
  cases l with
  | nil =>
    cases pat with
    | nil => rfl
    | cons a as => simp [List.isPrefixOf] at hp
  | cons b t =>
    unfold findSubAux
    rw [if_neg (by have := isPrefixOf_length hp; omega), if_pos hp]

/-- A match at the scan start is returned immediately. -/
theorem rfindAux_self {pat l : List Nat} {i : Nat} (h : matchAt pat l i = true) :
    rfindAux pat l i = some i := by
  cases i with
  | zero => unfold rfindAux; rw [if_pos h]
  | succ j => unfold rfindAux; rw [if_pos h]

/-- The last footer window of a footer-terminated buffer is at its very
end. -/
theorem rfindSub_footer (xs : List Nat) :
    rfindSub FOOTER (xs ++ [13, 10]) = some xs.length := by
  unfold rfindSub
  rw [if_neg (by simp [FOOTER])]
  have hidx : (xs ++ [13, 10]).length - FOOTER.length = xs.length := by simp [FOOTER]
  rw [hidx]
  apply rfindAux_self
  unfold matchAt
  rw [List.drop_left]
  rfl

/-- If no window matches, the backward scan returns nothing. -/
theorem rfindAux_none {pat l : List Nat} (h : ∀ j, matchAt pat l j = false) :
    ∀ i, rfindAux pat l i = none := by
  intro i
  induction i with
  | zero => unfold rfindAux; rw [if_neg (by simp [h 0])]
  | succ j ih => unfold rfindAux; rw [if_neg (by simp [h (j + 1)]), ih]

/-- In a buffer whose only EOM byte is final and whose penultimate byte
is not CR, no footer window matches anywhere. -/
theorem footer_no_match : ∀ (zs : List Nat) (j : Nat), (10 : Nat) ∉ zs →
    zs.getLast? ≠ some 13 → matchAt [13, 10] (zs ++ [10]) j = false := by
  intro zs
  induction zs with
  | nil =>
    intro j _ _
    cases j with
    | zero => rfl
    | succ j => simp [matchAt, List.isPrefixOf]
  | cons a t ih =>
    intro j h10 h13
    cases j with
    | zero =>
      cases t with
      | nil =>
        have ha : a ≠ 13 := by simpa using h13
        simp [matchAt, List.isPrefixOf]
        omega
      | cons c t2 =>
        have hc : c ≠ 10 := fun hc => h10 (by simp [hc])
        by_cases ha : a = 13
        · simp [matchAt, List.isPrefixOf, ha]
          omega
        · simp [matchAt, List.isPrefixOf]
          omega
    | succ j =>
      have hstep : matchAt [13, 10] ((a :: t) ++ [10]) (j + 1) =
          matchAt [13, 10] (t ++ [10]) j := by
        simp [matchAt]
      rw [hstep]
      apply ih j (fun hx => h10 (by simp [hx]))
      cases t with
      | nil => simp
      | cons c t2 => simpa using h13

/-! ## C1: frame round-trip -/

/-- One unfolding step of the frame-receive loop on a non-empty stream. -/
theorem receive_plugwise_aux_cons (fuel : Nat) (b : Nat) (t : List Nat) :
    receive_plugwise_aux (fuel + 1) (b :: t) =
      (let p := readUntil (b :: t)
       match findSub HEADER p.1 with
       | some hp =>
         match rfindSub FOOTER p.1 with
         | none => some (.error .protocol)
         | some fp => some (.ok (p.1, hp, fp))
       | none => receive_plugwise_aux fuel p.2) := rfl

/-- Receiving a frame `header ++ payload ++ crcfield ++ footer` whose
payload and CRC field are free of the EOM byte locates the header at 0
and the footer right after the CRC field. -/
theorem receive_plugwise_frame (P D : List Nat) (h10 : (10 : Nat) ∉ P)
    (hD10 : (10 : Nat) ∉ D) (hDlen : D.length = 4) :
    receive_plugwise_message_raw (HEADER ++ P ++ D ++ FOOTER) =
      some (.ok (HEADER ++ P ++ D ++ FOOTER, 0, P.length + 8)) := by
  have hnot10 : (10 : Nat) ∉ HEADER ++ P ++ D ++ [13] := by
    intro hx
    rcases List.mem_append.mp hx with hx | hx
    · rcases List.mem_append.mp hx with hx | hx
      · rcases List.mem_append.mp hx with hx | hx
        · simp [HEADER] at hx
        · exact h10 hx
      · exact hD10 hx
    · simp at hx
  have hsplit : HEADER ++ P ++ D ++ FOOTER = (HEADER ++ P ++ D ++ [13]) ++ 10 :: [] := by
    simp [FOOTER]
  have hread : readUntil (HEADER ++ P ++ D ++ FOOTER) = (HEADER ++ P ++ D ++ FOOTER, []) := by
    conv_lhs => rw [hsplit]
    rw [readUntil_append hnot10, hsplit]
  have hfind : findSub HEADER (HEADER ++ P ++ D ++ FOOTER) = some 0 := by
    apply findSub_of_isPrefixOf
    have h2 : HEADER ++ P ++ D ++ FOOTER = HEADER ++ (P ++ D ++ FOOTER) := by simp
    rw [h2]
    exact isPrefixOf_append_self _ _
  have hrfind : rfindSub FOOTER (HEADER ++ P ++ D ++ FOOTER) = some (P.length + 8) := by
    have h2 : HEADER ++ P ++ D ++ FOOTER = (HEADER ++ P ++ D) ++ [13, 10] := by
      simp [FOOTER]
    rw [h2, rfindSub_footer]
    congr 1
    simp [HEADER, hDlen]
  unfold receive_plugwise_message_raw
  obtain ⟨t, ht⟩ : ∃ t, HEADER ++ P ++ D ++ FOOTER = 5 :: t :=
    ⟨5 :: 3 :: 3 :: (P ++ D ++ FOOTER), by simp [HEADER]⟩
  rw [ht, List.length_cons, receive_plugwise_aux_cons, ← ht, hread]
  simp only []
  rw [hfind]
  simp only []
  rw [hrfind]

/-- The payload slice the frame layer extracts from a well-shaped frame. -/
theorem frame_payload_slice (P D : List Nat) (_hD : D.length = 4) :
    ((HEADER ++ P ++ D ++ FOOTER).take (P.length + 8 - CRC_SIZE)).drop
      (0 + HEADER.length) = P := by
  have h2 : HEADER ++ P ++ D ++ FOOTER = (HEADER ++ P) ++ (D ++ FOOTER) := by simp
  have h3 : P.length + 8 - CRC_SIZE = (HEADER ++ P).length := by simp [HEADER, CRC_SIZE]
  rw [h2, h3, List.take_left, Nat.zero_add, List.drop_left]

/-- The CRC-field slice the frame layer extracts from a well-shaped frame. -/
theorem frame_crc_slice (P D : List Nat) (hD : D.length = 4) :
    (((HEADER ++ P ++ D ++ FOOTER).drop (P.length + 8 - CRC_SIZE)).take
      CRC_SIZE).take 4 = D := by
  have h2 : HEADER ++ P ++ D ++ FOOTER = (HEADER ++ P) ++ (D ++ FOOTER) := by simp
  have h3 : P.length + 8 - CRC_SIZE = (HEADER ++ P).length := by simp [HEADER, CRC_SIZE]
  rw [h2, h3, List.drop_left, show CRC_SIZE = 4 from rfl, List.take_left' hD]
  exact List.take_of_length_le (by omega)

/-- C1 (amended): for every payload byte string with no EOM byte (0x0A)
and length within the transport buffer, writing it with the frame layer's
send and receiving from that uncorrupted stream returns exactly the
payload. -/
theorem frame_roundtrip (P : List Nat) (h10 : (10 : Nat) ∉ P)
    (_hlen : P.length ≤ 1000) :
    receive_message_raw (send_message_raw P) = some (.ok P) := by
  have hclt : crc16 P < 65536 := crc16_lt P
  have hdef : send_message_raw P = HEADER ++ P ++ toHex 4 (crc16 P) ++ FOOTER := rfl
  unfold receive_message_raw
  rw [hdef, receive_plugwise_frame P _ h10 (toHex_not_mem_eom (by omega)) (toHex_length 4 _)]
  simp only []
  rw [frame_payload_slice P _ (toHex_length 4 _), frame_crc_slice P _ (toHex_length 4 _),
    crcFold_toHex hclt, if_pos rfl]

/-- Counterexample to C1 as stated: the one-byte payload `[0x0A]`
(the EOM byte) does not survive the round trip — `read_until` cuts the
frame at the payload byte, no footer is found in the truncated chunk, and
receive fails with a protocol error instead of returning the payload. -/
theorem frame_roundtrip_counterexample :
    receive_message_raw (send_message_raw [10]) = some (.error .protocol) := rfl

/-- Witness for C1's amended theorem at the payload `012`. -/
theorem frame_roundtrip_witness :
    receive_message_raw (send_message_raw [48, 49, 50]) = some (.ok [48, 49, 50]) :=
  frame_roundtrip [48, 49, 50] (by decide) (by decide)

/-! ## C6: CRC corruption detection -/

/-- The lenient digit value is always a nibble. -/
theorem hexVal_lt (c : Nat) : hexVal c < 16 := by
  unfold hexVal hexDigit?
  by_cases h1 : 48 ≤ c ∧ c ≤ 57
  · rw [if_pos h1]
    simp only [Option.getD_some]
    omega
  · rw [if_neg h1]
    by_cases h2 : 97 ≤ c ∧ c ≤ 102
    · rw [if_pos h2]
      simp only [Option.getD_some]
      omega
    · rw [if_neg h2]
      by_cases h3 : 65 ≤ c ∧ c ≤ 70
      · rw [if_pos h3]
        simp only [Option.getD_some]
        omega
      · rw [if_neg h3]
        simp

/-- Closed form of the lenient CRC-field fold on four characters. -/
theorem crcFold_quad (c0 c1 c2 c3 : Nat) :
    [c0, c1, c2, c3].foldl (fun acc c => ((acc <<< 4) % 65536) ||| hexVal c) 0 =
      16 * (16 * (16 * hexVal c0 + hexVal c1) + hexVal c2) + hexVal c3 := by
  have h0 := hexVal_lt c0
  have h1 := hexVal_lt c1
  have h2 := hexVal_lt c2
  simp only [List.foldl_cons, List.foldl_nil, Nat.shiftLeft_eq,
    show (2 : Nat) ^ 4 = 16 from rfl]
  rw [show (0 : Nat) * 16 % 65536 = 0 from rfl, Nat.zero_or]
  rw [Nat.mod_eq_of_lt (show hexVal c0 * 16 < 65536 by omega),
    Nat.mul_comm (hexVal c0) 16, or16 _ _ (hexVal_lt c1)]
  rw [Nat.mod_eq_of_lt (show (16 * hexVal c0 + hexVal c1) * 16 < 65536 by omega),
    Nat.mul_comm (16 * hexVal c0 + hexVal c1) 16, or16 _ _ (hexVal_lt c2)]
  rw [Nat.mod_eq_of_lt (show (16 * (16 * hexVal c0 + hexVal c1) + hexVal c2) * 16 < 65536
      by omega),
    Nat.mul_comm (16 * (16 * hexVal c0 + hexVal c1) + hexVal c2) 16,
    or16 _ _ (hexVal_lt c3)]

/-- A well-shaped frame whose CRC field does not parse to the CRC of its
payload is rejected with a protocol error. -/
theorem receive_frame_bad_crc (P D : List Nat) (h10 : (10 : Nat) ∉ P)
    (hD10 : (10 : Nat) ∉ D) (hDlen : D.length = 4)
    (hfold : D.foldl (fun acc c => ((acc <<< 4) % 65536) ||| hexVal c) 0 ≠ crc16 P) :
    receive_message_raw (HEADER ++ P ++ D ++ FOOTER) = some (.error .protocol) := by
  unfold receive_message_raw
  rw [receive_plugwise_frame P D h10 hD10 hDlen]
  simp only []
  rw [frame_payload_slice P D hDlen, frame_crc_slice P D hDlen, if_neg hfold]

/-- A chunk whose only EOM byte is final, whose penultimate byte is not
CR, and which starts with the header, is received as a protocol error
(footer missing in the truncated read). -/
theorem receive_plugwise_truncated (zs rest : List Nat) (h10 : (10 : Nat) ∉ zs)
    (hhead : HEADER.isPrefixOf (zs ++ [10]) = true)
    (hlast : zs.getLast? ≠ some 13) :
    receive_plugwise_message_raw (zs ++ 10 :: rest) = some (.error .protocol) := by
  have hread := readUntil_append h10 rest
  have hfind := findSub_of_isPrefixOf hhead
  have hrfind : rfindSub FOOTER (zs ++ [10]) = none := by
    unfold rfindSub
    split
    · rfl
    · exact rfindAux_none (fun j => footer_no_match zs j h10 hlast) _
  cases zs with
  | nil => simp [HEADER, List.isPrefixOf] at hhead
  | cons z zs2 =>
    unfold receive_plugwise_message_raw
    rw [List.cons_append, List.length_cons, receive_plugwise_aux_cons,
      ← List.cons_append, hread]
    simp only []
    rw [hfind]
    simp only []
    rw [hrfind]

/-- The frame layer surfaces the truncated-read protocol error. -/
theorem receive_truncated (zs rest : List Nat) (h10 : (10 : Nat) ∉ zs)
    (hhead : HEADER.isPrefixOf (zs ++ [10]) = true)
    (hlast : zs.getLast? ≠ some 13) :
    receive_message_raw (zs ++ 10 :: rest) = some (.error .protocol) := by
  unfold receive_message_raw
  rw [receive_plugwise_truncated zs rest h10 hhead hlast]

/-- C6 (amended): take the frame of any EOM-free payload that does not
end in CR; replacing the CRC character at any position `i < 4` by a byte
whose lenient hex-digit value (`to_digit(16)`, non-hex as 0) differs from
that character's value makes receive reject the altered frame with a
protocol error. Replacements that parse to the same digit value — e.g. a
non-hex byte replacing a `0` — are accepted by the lenient parser, which
is why the claim as stated fails (see the counterexample). -/
theorem crc_corruption_detected (P : List Nat) (i b : Nat)
    (h10 : (10 : Nat) ∉ P) (h13 : P.getLast? ≠ some 13) (hi : i < 4)
    (hb : hexVal b ≠ hexVal ((toHex 4 (crc16 P)).getD i 0)) :
    receive_message_raw ((send_message_raw P).set (4 + P.length + i) b) =
      some (.error .protocol) := by
  have hvlt : crc16 P < 65536 := crc16_lt P
  have hlenC : (toHex 4 (crc16 P)).length = 4 := toHex_length 4 _
  obtain ⟨c0, c1, c2, c3, hC⟩ : ∃ c0 c1 c2 c3, toHex 4 (crc16 P) = [c0, c1, c2, c3] :=
    ⟨_, _, _, _, rfl⟩
  have hmemC : ∀ c ∈ toHex 4 (crc16 P), (48 ≤ c ∧ c ≤ 57) ∨ (65 ≤ c ∧ c ≤ 70) :=
    toHex_mem 4 _ (by omega)
  have hfoldC : 16 * (16 * (16 * hexVal c0 + hexVal c1) + hexVal c2) + hexVal c3
      = crc16 P := by
    have h := crcFold_toHex hvlt
    rw [hC, crcFold_quad] at h
    exact h
  have hsetdef : (send_message_raw P).set (4 + P.length + i) b
      = HEADER ++ P ++ (toHex 4 (crc16 P)).set i b ++ FOOTER := by
    show (HEADER ++ P ++ toHex 4 (crc16 P) ++ FOOTER).set (4 + P.length + i) b = _
    rw [List.set_append, if_pos (by simp [HEADER, hlenC]; omega)]
    rw [List.set_append, if_neg (by simp [HEADER]; omega)]
    have hidx : 4 + P.length + i - (HEADER ++ P).length = i := by
      simp [HEADER]
      omega
    rw [hidx]
  by_cases hbe : b = 10
  · subst hbe
    have htk : (toHex 4 (crc16 P)).set i 10
        = (toHex 4 (crc16 P)).take i ++ 10 :: (toHex 4 (crc16 P)).drop (i + 1) := by
      rw [List.set_eq_take_append_cons_drop, if_pos (by omega)]
    have hzs : HEADER ++ P ++ (toHex 4 (crc16 P)).set i 10 ++ FOOTER
        = (HEADER ++ P ++ (toHex 4 (crc16 P)).take i) ++
            10 :: ((toHex 4 (crc16 P)).drop (i + 1) ++ FOOTER) := by
      rw [htk]
      simp [List.append_assoc]
    rw [hsetdef, hzs]
    have hzs10 : (10 : Nat) ∉ HEADER ++ P ++ (toHex 4 (crc16 P)).take i := by
      intro hx
      rcases List.mem_append.mp hx with hx | hx
      · rcases List.mem_append.mp hx with hx | hx
        · simp [HEADER] at hx
        · exact h10 hx
      · have := hmemC _ (List.mem_of_mem_take hx)
        omega
    have hzhead :
        HEADER.isPrefixOf ((HEADER ++ P ++ (toHex 4 (crc16 P)).take i) ++ [10]) = true := by
      have h2 : (HEADER ++ P ++ (toHex 4 (crc16 P)).take i) ++ [10]
          = HEADER ++ (P ++ ((toHex 4 (crc16 P)).take i ++ [10])) := by simp
      rw [h2]
      exact isPrefixOf_append_self _ _
    have hzlast : (HEADER ++ P ++ (toHex 4 (crc16 P)).take i).getLast? ≠ some 13 := by
      cases hti : (toHex 4 (crc16 P)).take i with
      | nil =>
        rw [List.append_nil]
        cases P with
        | nil => rw [List.append_nil]; decide
        | cons p ps =>
          rw [List.getLast?_append_of_ne_nil _ (by simp)]
          exact h13
      | cons a t =>
        rw [List.getLast?_append_of_ne_nil _ (by simp)]
        intro hx
        have hmem : (13 : Nat) ∈ (toHex 4 (crc16 P)).take i := by
          rw [hti]
          exact List.mem_of_mem_getLast? (Option.mem_def.mpr hx)
        have := hmemC _ (List.mem_of_mem_take hmem)
        omega
    exact receive_truncated _ _ hzs10 hzhead hzlast
  · have hD10 : (10 : Nat) ∉ (toHex 4 (crc16 P)).set i b := by
      intro hx
      rcases List.mem_or_eq_of_mem_set hx with hx | hx
      · have := hmemC _ hx
        omega
      · exact hbe hx.symm
    rw [hsetdef]
    apply receive_frame_bad_crc P _ h10 hD10 (by rw [List.length_set, hlenC])
    rw [hC]
    have hb2 := hb
    rw [hC] at hb2
    have hv1 := hexVal_lt c1
    have hv2 := hexVal_lt c2
    have hv3 := hexVal_lt c3
    have hv0 := hexVal_lt c0
    have hvb := hexVal_lt b
    interval_cases i
    · have hbb : hexVal b ≠ hexVal c0 := hb2
      rw [show [c0, c1, c2, c3].set 0 b = [b, c1, c2, c3] from rfl, crcFold_quad]
      omega
    · have hbb : hexVal b ≠ hexVal c1 := hb2
      rw [show [c0, c1, c2, c3].set 1 b = [c0, b, c2, c3] from rfl, crcFold_quad]
      omega
    · have hbb : hexVal b ≠ hexVal c2 := hb2
      rw [show [c0, c1, c2, c3].set 2 b = [c0, c1, b, c3] from rfl, crcFold_quad]
      omega
    · have hbb : hexVal b ≠ hexVal c3 := hb2
      rw [show [c0, c1, c2, c3].set 3 b = [c0, c1, c2, b] from rfl, crcFold_quad]
      omega

/-- Counterexample to C6 as stated: the frame of the empty payload has
CRC field `0000`; replacing its first CRC character `0` (0x30) by the
different, non-hex byte `X` (0x58) — which the lenient parser also reads
as digit 0 — leaves the frame accepted, not rejected. -/
theorem crc_detection_counterexample :
    (send_message_raw []).getD 4 0 = 48 ∧ (48 : Nat) ≠ 88 ∧
      receive_message_raw ((send_message_raw []).set 4 88) = some (.ok []) :=
  ⟨rfl, by decide, rfl⟩

/-- Witness for C6's amended theorem: the CRC of payload `012` is `E510`;
replacing the `E` by `0` is detected. -/
theorem crc_corruption_detected_witness :
    receive_message_raw ((send_message_raw [48, 49, 50]).set (4 + 3 + 0) 48) =
      some (.error .protocol) :=
  crc_corruption_detected [48, 49, 50] 0 48 (by decide) (by decide) (by decide) (by decide)

end Plugwise
